import Mathlib

/-!
Verification of the snapshot identity, deduplication and selection subsystem
of the byoe repository (`src/byoe/snaps.py`, `src/byoe/byoe.py`,
`src/byoe/globals.py`), shallowly embedded in Lean 4.

Paths are modelled as lists of components from the repository root; the
filesystem is an association list from paths to nodes (regular file with
content, directory, or symlink carrying its resolved target path).  Relative
symlink targets created with `os.path.relpath` are stored as the absolute
path they resolve to, which is equivalent as long as the intermediate
directory components are real directories, as they are in every state these
operations produce.
-/

namespace Byoe

/-- Environment backend kinds (`globals.py` `EnvType`).  The first three
members are the ones listed in `src/byoe/globals.py`.  The `apptainer`
member is `Modelled from the spec:` the container-image backend kind;
`snaps.py` and `apptainer.py` refer to `EnvType.APPTAINER`, but the
`globals.py` file present under `src/` is a stale version that lacks it. -/
inductive EnvType where
  | spack
  | python
  | conda
  | apptainer
  deriving DecidableEq, Repr

/-- `globals.py` `SnapType`. -/
inductive SnapType where
  | env
  | app
  deriving DecidableEq, Repr

/-- `globals.py` `ShellType`. -/
inductive ShellType where
  | sh
  | csh
  | fish
  deriving DecidableEq, Repr

/-- The `.value` string of each `EnvType` member (used as a directory name). -/
def EnvType.value : EnvType → String
  | .spack => "spack"
  | .python => "python"
  | .conda => "conda"
  | .apptainer => "apptainer"

/-- `ShellType.value` strings. -/
def ShellType.value : ShellType → String
  | .sh => "sh"
  | .csh => "csh"
  | .fish => "fish"

/-- `globals.py` `LOCK_SUFFIXES`; the `apptainer` entry is
`Modelled from the spec:` the container-image lock suffix `.def` given in the
spec's backend lock-suffix registry (it is missing from `src/globals.py`
although `apptainer.py` uses `LOCK_SUFFIXES[EnvType.APPTAINER]`). -/
def lockSuffix : EnvType → String
  | .spack => ".lock"
  | .python => "-requirements.txt"
  | .conda => "-lock.yml"
  | .apptainer => ".def"

/-- `Modelled from the spec:` `ENV_SUFFIXES` is imported by `snaps.py` from
`globals.py` but absent from the `globals.py` under `src/`.  The spec's
directory convention gives the artifact path as `{SnapId}` with no extra
suffix, so every suffix is the empty string (`.get(env_type, "")` default). -/
def envSuffix : EnvType → String := fun _ => ""

/-! ### Dates

`SnapId.time_stamp` is a Python `datetime`; with the configured granularity
`TS_FORMAT = "%Y%m"` (from `src/byoe/globals.py`) only year and month are
printed.  We model timestamps as calendar dates (year, month, day); the
sub-day fields are zero in every value these operations construct. -/

structure Date where
  year : Nat
  month : Nat
  day : Nat
  deriving DecidableEq, Repr

/-- Python `datetime` comparison restricted to our date model:
lexicographic on (year, month, day). -/
def dateLt (a b : Date) : Bool :=
  a.year < b.year ∨ (a.year = b.year ∧
    (a.month < b.month ∨ (a.month = b.month ∧ a.day < b.day)))

/-- Day number of a civil date (proleptic Gregorian), Hinnant's
`days_from_civil`; used to measure the "absolute distance (in time)" of the
spec's channel-selection algorithm in days. -/
def daysFromCivil (d : Date) : Int :=
  let y : Int := if d.month ≤ 2 then (d.year : Int) - 1 else (d.year : Int)
  let era : Int := (if 0 ≤ y then y else y - 399) / 400
  let yoe : Int := y - era * 400
  let mp : Int := ((d.month : Int) + 9) % 12
  let doy : Int := (153 * mp + 2) / 5 + (d.day : Int) - 1
  let doe : Int := yoe * 365 + yoe / 4 - yoe / 100 + doy
  era * 146097 + doe - 719468

/-! ### SnapId -/

/-- `snaps.py` `SnapId`: timestamp, version (default 0), optional label. -/
structure SnapId where
  ts : Date
  version : Nat := 0
  label : Option String := none
  deriving DecidableEq, Repr

/-- Digit characters of `n`, most significant first, assuming `n ≤ fuel`
(empty for `n = 0`). -/
def natCharsAux : Nat → Nat → List Char
  | 0, _ => []
  | fuel + 1, n =>
    if n = 0 then [] else natCharsAux fuel (n / 10) ++ [Nat.digitChar (n % 10)]

/-- Decimal digit characters of a natural number, most significant first,
with `natChars 0 = "0"` (Python `str(int)` / f-string formatting). -/
def natChars (n : Nat) : List Char :=
  if n = 0 then ['0'] else natCharsAux n n

/-- Zero-pad a digit list on the left to width `w` (strftime `%Y` / `%m`). -/
def padChars (w : Nat) (cs : List Char) : List Char :=
  List.replicate (w - cs.length) '0' ++ cs

/-- `time_stamp.strftime(TS_FORMAT)` with `TS_FORMAT = "%Y%m"`:
four-digit year then two-digit month. -/
def tsChars (d : Date) : List Char :=
  padChars 4 (natChars d.year) ++ padChars 2 (natChars d.month)

/-- `SnapId.__repr__` (snaps.py lines 41-47), as a character list. -/
def reprChars (s : SnapId) : List Char :=
  if s.version = 0 ∧ s.label = none then tsChars s.ts
  else match s.label with
    | none => tsChars s.ts ++ '.' :: natChars s.version
    | some l => tsChars s.ts ++ '.' :: (l.data ++ natChars s.version)

/-- `repr(snap_id)` / `str(snap_id)`. -/
def reprSnapId (s : SnapId) : String := ⟨reprChars s⟩

/-- Value of a big-endian digit character list. -/
def charsToNat (cs : List Char) : Nat :=
  cs.foldl (fun a c => 10 * a + (c.toNat - 48)) 0

/-- Python `_strptime` semantics of `datetime.strptime(ts, "%Y%m")`:
`%Y` matches exactly four digits, `%m` matches `1[0-2]|0[1-9]|[1-9]`, the
whole string must be consumed, and the year must be a valid `datetime` year
(at least 1).  The day defaults to 1, sub-day fields to 0. -/
def parseTsYm (cs : List Char) : Option Date :=
  match cs with
  | y1 :: y2 :: y3 :: y4 :: rest =>
    if (y1.isDigit ∧ y2.isDigit ∧ y3.isDigit ∧ y4.isDigit) then
      let y := charsToNat [y1, y2, y3, y4]
      if y = 0 then none
      else match rest with
        | [m1] => if '1' ≤ m1 ∧ m1 ≤ '9' then some ⟨y, charsToNat [m1], 1⟩ else none
        | [m1, m2] =>
          if m1 = '1' ∧ '0' ≤ m2 ∧ m2 ≤ '2' then some ⟨y, charsToNat [m1, m2], 1⟩
          else if m1 = '0' ∧ '1' ≤ m2 ∧ m2 ≤ '9' then some ⟨y, charsToNat [m2], 1⟩
          else none
        | _ => none
    else none
  | _ => none

/-- Result of matching `VALID_SNAP_ID_REGEX = ^([0-9]+)(?:\.([A-Za-z]+)?([0-9]+))?$`
against a whole string: the timestamp digits, the optional label letters and
the optional version digits. -/
def matchSnapIdFull (cs : List Char) :
    Option (List Char × Option (List Char) × Option (List Char)) :=
  let ds := cs.takeWhile Char.isDigit
  let rest := cs.dropWhile Char.isDigit
  if ds = [] then none
  else match rest with
    | [] => some (ds, none, none)
    | '.' :: rest2 =>
      let ls := rest2.takeWhile Char.isAlpha
      let rest3 := rest2.dropWhile Char.isAlpha
      let vs := rest3.takeWhile Char.isDigit
      let rest4 := rest3.dropWhile Char.isDigit
      if vs = [] ∨ rest4 ≠ [] then none
      else some (ds, if ls = [] then none else some ls, some vs)
    | _ => none

/-- `SnapId.from_str` (snaps.py lines 49-60): regex match, then
`datetime.strptime(ts, TS_FORMAT)`; `None` models the raised
`InvalidSnapIdError`. -/
def fromStr (s : String) : Option SnapId :=
  match matchSnapIdFull s.data with
  | none => none
  | some (ds, lbl, vers) =>
    match parseTsYm ds with
    | none => none
    | some d =>
      some ⟨d, (vers.map charsToNat).getD 0, lbl.map (fun l => (⟨l⟩ : String))⟩

/-- `re.search` of the unanchored-prefix form of the snap-id regex
(`SnapId.from_prefix`): the leading digit run, then—only when a full
`\.([A-Za-z]+)?([0-9]+)` group follows—the label/version part; otherwise the
optional group backtracks to empty.  `None` models `InvalidSnapIdError`. -/
def matchSnapIdPrefix (cs : List Char) :
    Option (List Char × Option (List Char) × Option (List Char)) :=
  let ds := cs.takeWhile Char.isDigit
  let rest := cs.dropWhile Char.isDigit
  if ds = [] then none
  else match rest with
    | '.' :: rest2 =>
      let ls := rest2.takeWhile Char.isAlpha
      let rest3 := rest2.dropWhile Char.isAlpha
      let vs := rest3.takeWhile Char.isDigit
      if vs = [] then some (ds, none, none)
      else some (ds, if ls = [] then none else some ls, some vs)
    | _ => some (ds, none, none)

/-- `SnapId.from_prefix` (snaps.py lines 62-67). -/
def fromPrefix (s : String) : Option SnapId :=
  match matchSnapIdPrefix s.data with
  | none => none
  | some (ds, lbl, vers) =>
    match parseTsYm ds with
    | none => none
    | some d =>
      some ⟨d, (vers.map charsToNat).getD 0, lbl.map (fun l => (⟨l⟩ : String))⟩

/-- Lexicographic comparison of character lists by code point: Python's
string `<`. -/
def charListLt : List Char → List Char → Bool
  | [], [] => false
  | [], _ :: _ => true
  | _ :: _, [] => false
  | a :: as, b :: bs => if a < b then true else if a = b then charListLt as bs else false

/-- Python string comparison `<` (lexicographic by code point). -/
def strLt (a b : String) : Bool := charListLt a.data b.data

/-- `SnapId.__lt__` (snaps.py lines 69-72): lexicographic comparison of
`(time_stamp, label or "", version)`, with Python's string ordering. -/
def snapIdLt (a b : SnapId) : Prop :=
  dateLt a.ts b.ts = true ∨ (a.ts = b.ts ∧
    (strLt (a.label.getD "") (b.label.getD "") = true ∨
      (a.label.getD "" = b.label.getD "" ∧ a.version < b.version)))

instance : Decidable (dateLt a b = true) := instDecidableEqBool _ _

instance (a b : SnapId) : Decidable (snapIdLt a b) := by
  unfold snapIdLt; infer_instance

/-- Validity of a `SnapId` per the spec's data model: timestamp truncated to
year+month granularity (four-digit year, month 1-12, day 1), label absent or
a non-empty alphabetic string. -/
def validSnapId (s : SnapId) : Prop :=
  1000 ≤ s.ts.year ∧ s.ts.year ≤ 9999 ∧ 1 ≤ s.ts.month ∧ s.ts.month ≤ 12 ∧
  s.ts.day = 1 ∧
  match s.label with
  | none => True
  | some l => l ≠ "" ∧ ∀ c ∈ l.data, c.isAlpha = true

/-- The lexicographic strict order on the triple
`(time_stamp, label-or-empty-string, version)` stated with `Prod.Lex`,
against which `snapIdLt` is compared. -/
def tripleLex (a b : SnapId) : Prop :=
  Prod.Lex (fun x y : Date => dateLt x y = true)
    (Prod.Lex (fun x y : String => strLt x y = true) (· < · : Nat → Nat → Prop))
    (a.ts, a.label.getD "", a.version) (b.ts, b.label.getD "", b.version)

/-! ### Snapshot allocator (probing phase), `ByoeRepo._allocate_snap_id` -/

/-- Python `pathlib.Path.stem`: the final component minus its last suffix
(the part from the final `'.'`, provided that dot is neither the first nor
the last character). -/
def pyStem (s : String) : String :=
  let cs := s.data
  let dots := (List.range cs.length).filter (fun i => cs.get? i = some '.')
  match dots.getLast? with
  | none => s
  | some i => if 0 < i ∧ i + 1 < cs.length then ⟨cs.take i⟩ else s

/-- Python `name.split("-")[-1]`: the segment after the final `'-'`
(the whole string when there is none). -/
def lastDashPart (cs : List Char) : List Char :=
  (cs.reverse.takeWhile (fun c => c ≠ '-')).reverse

/-- One probing step of `_allocate_snap_id` (byoe.py lines 842-867): skip a
parsed id whose label differs, otherwise `if min_vers <= version:
min_vers = version + 1`. -/
def probeStep (label : Option String) (m : Nat) (sid : SnapId) : Nat :=
  if sid.label ≠ label then m
  else if m ≤ sid.version then sid.version + 1 else m

/-- The probing phase of `ByoeRepo._allocate_snap_id`: fold over the
site-conf file names (`{ts}*-site_conf.yaml` glob results, parsed via
`SnapId.from_prefix` of the stem, unparseable entries skipped) and then over
the in-progress marker names (`.in-progress-{ts}*` glob results, parsed from
the last `'-'`-separated token), producing the first candidate version. -/
def allocProbe (siteConfNames inProgNames : List String)
    (label : Option String) : Nat :=
  let m1 := siteConfNames.foldl (fun m nm =>
    match fromPrefix (pyStem nm) with
    | none => m
    | some sid => probeStep label m sid) 0
  inProgNames.foldl (fun m nm =>
    match fromPrefix ⟨lastDashPart nm.data⟩ with
    | none => m
    | some sid => probeStep label m sid) m1

/-- The versions already used or reserved for the given label, in scan
order: the parseable site-conf entries followed by the parseable in-progress
entries whose label matches. -/
def probeMatching (siteConfNames inProgNames : List String)
    (label : Option String) : List Nat :=
  siteConfNames.filterMap (fun nm =>
    match fromPrefix (pyStem nm) with
    | none => none
    | some sid => if sid.label = label then some sid.version else none) ++
  inProgNames.filterMap (fun nm =>
    match fromPrefix ⟨lastDashPart nm.data⟩ with
    | none => none
    | some sid => if sid.label = label then some sid.version else none)

/-- The spec's words for the probing result: "the minimum version number not
already used or reserved".  Stated for comparison with `allocProbe`. -/
def minUnusedVersion (vs : List Nat) : Nat :=
  (((List.range (vs.length + 1)).filter (fun n => ¬ n ∈ vs)).headD 0)

/-! ### Channel selector

`Modelled from the spec:` `select_snap` is imported by `byoe.py` from
`.util`, but the `util.py` under `src/` does not define it; the definitions
below follow the spec's channel-selection algorithm (§4.5): validate the
period, compute the target boundary date, and pick, among the candidates at
minimum absolute distance in days from the boundary, the one sorting highest
in `SnapId` order. -/

/-- `Modelled from the spec:` the target boundary date.  For a period of at
most 12 months it must evenly divide 12 and the boundary is the start of the
most recent period-aligned month (Jan-based) not after `now`; for longer
periods it must be a whole number of years and the boundary is the start of
the most recent period-aligned year. -/
def channelBoundary (months : Nat) (now : Date) : Option Date :=
  if months = 0 then none
  else if months ≤ 12 then
    if 12 % months ≠ 0 then none
    else some ⟨now.year, now.month - (now.month - 1) % months, 1⟩
  else
    if months % 12 ≠ 0 then none
    else some ⟨now.year - now.year % (months / 12), 1, 1⟩

/-- Absolute distance between two dates in days. -/
def distDays (a b : Date) : Nat := (daysFromCivil a - daysFromCivil b).natAbs

/-- `Modelled from the spec:` `select_snap(avail, update_months)`: reject an
empty candidate list, compute the boundary, and fold over the candidates
keeping the best one — replaced when strictly closer to the boundary, or
equally close and higher in the `SnapId` total order. -/
def selectSnap (avail : List SnapId) (months : Nat) (now : Date) :
    Option SnapId :=
  match avail with
  | [] => none
  | x :: rest =>
    match channelBoundary months now with
    | none => none
    | some b =>
      some (rest.foldl (fun best c =>
        if distDays c.ts b < distDays best.ts b ∨
            (distDays c.ts b = distDays best.ts b ∧ snapIdLt best c)
        then c else best) x)

/-- `ByoeRepo.get_snap` (byoe.py lines 652-674) over the list of available
ids (the parsed `*-site_conf.yaml` glob results): raises when none are
available; with no explicit id, filters out labeled snaps and delegates to
`select_snap`; with an explicit id, requires membership. -/
def getSnap (avail : List SnapId) (months : Nat) (now : Date)
    (snapId : Option SnapId) : Except String SnapId :=
  if avail.isEmpty then .error "No snapshots available"
  else
    match snapId with
    | none =>
      match selectSnap (avail.filter (fun x => x.label = none)) months now with
      | some s => .ok s
      | none => .error "selection failed"
    | some sid => if sid ∈ avail then .ok sid else .error "No such snap"

/-! ### Filesystem model

A path is the list of components from the repository root; the filesystem is
an association list from paths to nodes.  `Path.resolve()` follows chains of
final-component symlinks (in the states produced by the modelled operations
every intermediate component is a real directory). -/

abbrev FsPath := List String

inductive Node where
  | file (content : String)
  | dir
  | symlink (target : FsPath)
  deriving DecidableEq, Repr

abbrev FS := List (FsPath × Node)

def fsLookup : FS → FsPath → Option Node
  | [], _ => none
  | (q, n) :: rest, p => if p = q then some n else fsLookup rest p

/-- `unlink`: remove exactly this entry (never follows symlinks). -/
def fsErase (fs : FS) (p : FsPath) : FS := fs.filter (fun e => ¬ e.1 = p)

/-- `shutil.rmtree`: remove the directory and everything below it. -/
def fsEraseTree (fs : FS) (p : FsPath) : FS :=
  fs.filter (fun e => ¬ p.isPrefixOf e.1)

def fsInsert (fs : FS) (p : FsPath) (n : Node) : FS := (p, n) :: fsErase fs p

def resolveFuel : Nat → FS → FsPath → FsPath
  | 0, _, p => p
  | fuel + 1, fs, p =>
    match fsLookup fs p with
    | some (.symlink t) => resolveFuel fuel fs t
    | _ => p

/-- `Path.resolve()` (non-strict): follow symlinks as far as possible. -/
def resolvePath (fs : FS) (p : FsPath) : FsPath := resolveFuel (fs.length + 1) fs p

/-- `Path.exists()`: follows symlinks, false for a broken link. -/
def pathExists (fs : FS) (p : FsPath) : Bool :=
  (fsLookup fs (resolvePath fs p)).isSome

/-- `Path.is_symlink()`: does not follow the link. -/
def isSymlink (fs : FS) (p : FsPath) : Bool :=
  match fsLookup fs p with
  | some (.symlink _) => true
  | _ => false

/-- `Path.is_dir()`: follows symlinks. -/
def isDir (fs : FS) (p : FsPath) : Bool :=
  match fsLookup fs (resolvePath fs p) with
  | some .dir => true
  | _ => false

/-- `Path.read_text()`: follows symlinks; `none` models the raised `OSError`
when the file is absent or not a regular file. -/
def readFile (fs : FS) (p : FsPath) : Option String :=
  match fsLookup fs (resolvePath fs p) with
  | some (.file c) => some c
  | _ => none

/-- `Path.parent`. -/
def parentDir (p : FsPath) : FsPath := p.dropLast

/-- `Path.name`. -/
def baseName (p : FsPath) : String := p.getLastD ""

/-- Python `str.endswith`. -/
def strEndsWith (s suffix : String) : Bool :=
  suffix.data.reverse.isPrefixOf s.data.reverse

/-- `Path.symlink_to` modulo the relative/absolute equivalence noted above:
fails if the path exists (`FileExistsError`) or its parent directory is
missing (`FileNotFoundError`). -/
inductive SnapErr where
  | snapReference
  | fileNotFound
  | fileExists
  | missingLock
  | unreadableLock
  deriving DecidableEq, Repr

def symlinkCreate (fs : FS) (p : FsPath) (target : FsPath) :
    Except SnapErr FS :=
  if fsLookup fs p ≠ none then .error .fileExists
  else if isDir fs (parentDir p) then .ok (fsInsert fs p (.symlink target))
  else .error .fileNotFound

/-- `Path.mkdir(exist_ok=True)`. -/
def mkdirExistOk (fs : FS) (p : FsPath) : Except SnapErr FS :=
  match fsLookup fs p with
  | some .dir => .ok fs
  | some _ => .error .fileExists
  | none => if isDir fs (parentDir p) then .ok (fsInsert fs p .dir)
            else .error .fileNotFound

/-- `shutil.move` of a file or directory tree: every entry at or below
`src` is relocated below `dst`. -/
def movePath (fs : FS) (src dst : FsPath) : FS :=
  fs.map (fun e =>
    if src.isPrefixOf e.1 then (dst ++ e.1.drop src.length, e.2) else e)

/-- Python `str.replace` (all occurrences, left to right), with enough fuel
for one character per step; the empty pattern is treated as matching nowhere
(the snap-id strings substituted here are never empty). -/
def listReplaceFuel : Nat → List Char → List Char → List Char → List Char
  | 0, cs, _, _ => cs
  | fuel + 1, cs, old, new =>
    match cs with
    | [] => []
    | c :: rest =>
      if old ≠ [] ∧ old.isPrefixOf (c :: rest) then
        new ++ listReplaceFuel fuel ((c :: rest).drop old.length) old new
      else c :: listReplaceFuel fuel rest old new

def pyReplace (s old new : String) : String :=
  ⟨listReplaceFuel s.data.length s.data old.data new.data⟩

/-! ### SnapSpec (snaps.py) -/

/-- `snaps.py` `SnapSpec`. -/
structure SnapSpec where
  snapId : SnapId
  envType : EnvType
  name : String
  snapPath : FsPath
  snapType : SnapType
  deriving DecidableEq, Repr

/-- `SnapSpec.lock_file`: sibling of `snap_path` named
`{snap_id}{lock_suffix}`. -/
def SnapSpec.lockFile (s : SnapSpec) : FsPath :=
  parentDir s.snapPath ++ [reprSnapId s.snapId ++ lockSuffix s.envType]

/-- `SnapSpec.lock_hash_dir`: `snap_path.parent.parent / ".by_hash"`. -/
def SnapSpec.lockHashDir (s : SnapSpec) : FsPath :=
  parentDir (parentDir s.snapPath) ++ [".by_hash"]

/-- `SnapSpec.lock_hash`: blake2b of the backend-normalized lock data,
modelled as an abstract digest function `hashFn` applied to the lock file's
content (the claims depend only on digest equality for identical normalized
content and on the digest serving as a path component); reading the lock
file follows symlinks, and `none` models the exception on a missing lock. -/
def lockHash (hashFn : String → String) (fs : FS) (s : SnapSpec) :
    Option String :=
  (readFile fs s.lockFile).map hashFn

/-- `SnapSpec.lock_hash_link`: `lock_hash_dir / lock_hash`. -/
def lockHashLink (hashFn : String → String) (fs : FS) (s : SnapSpec) :
    Option FsPath :=
  (lockHash hashFn fs s).map (fun h => s.lockHashDir ++ [h])

/-- `SnapSpec.is_canon`: the registry symlink for this hash exists and
resolves to this snapshot's own lock file ( `false` also models the raised
exception when the lock file cannot be read). -/
def isCanon (hashFn : String → String) (fs : FS) (s : SnapSpec) : Bool :=
  match lockHashLink hashFn fs s with
  | none => false
  | some hl => pathExists fs hl ∧ resolvePath fs hl = s.lockFile

/-- `SnapSpec.supports_activation` (snaps.py lines 149-151). -/
def SnapSpec.supportsActivation (s : SnapSpec) : Bool :=
  ¬ (s.snapType = .env ∧ s.envType = .apptainer)

/-- `SnapSpec.get_activate_path` (snaps.py lines 153-164); the caller has
already established `supports_activation`. -/
def SnapSpec.getActivatePath (s : SnapSpec) (shl : ShellType) : FsPath :=
  if s.snapType = .app ∨ s.envType ≠ .python then
    parentDir s.snapPath ++ [baseName s.snapPath ++ "-activate." ++ shl.value]
  else
    s.snapPath ++ ["bin",
      "activate" ++ (match shl with | .sh => "" | _ => "." ++ shl.value)]

/-- The candidate associated paths of `SnapSpec.get_paths` (snaps.py lines
176-194), before the existence filter. -/
def getPathsCandidates (s : SnapSpec) : List FsPath :=
  [s.snapPath] ++
  (if s.supportsActivation then
    [s.getActivatePath .sh, s.getActivatePath .csh, s.getActivatePath .fish]
   else []) ++
  [s.lockFile] ++
  (if s.snapType = .env then
    match s.envType with
    | .spack => [parentDir s.snapPath ++ ["._" ++ reprSnapId s.snapId],
                 parentDir s.snapPath ++ [reprSnapId s.snapId ++ "-env"]]
    | .python => [parentDir s.snapPath ++ [reprSnapId s.snapId ++ "-main-req.in"],
                  parentDir s.snapPath ++ [reprSnapId s.snapId ++ "-sys-req.txt"]]
    | .conda => [parentDir s.snapPath ++ [reprSnapId s.snapId ++ "-in.yml"],
                 parentDir s.snapPath ++ [reprSnapId s.snapId ++ "-virtual.yml"]]
    | .apptainer => []
   else [])

/-- `SnapSpec.get_paths`: the existing candidates. -/
def getPaths (fs : FS) (s : SnapSpec) : List FsPath :=
  (getPathsCandidates s).filter (fun p => pathExists fs p)

/-- `EnvType(value)` lookup; `none` models the raised `ValueError`. -/
def envTypeOfValue (v : String) : Option EnvType :=
  if v = "spack" then some .spack
  else if v = "python" then some .python
  else if v = "conda" then some .conda
  else if v = "apptainer" then some .apptainer
  else none

/-- `SnapSpec.from_lock_path` (snaps.py lines 285-298). -/
def fromLockPath (lockPath : FsPath) : Option SnapSpec :=
  match fromPrefix (pyStem (baseName lockPath)) with
  | none => none
  | some sid =>
    match envTypeOfValue (baseName (parentDir (parentDir lockPath))) with
    | none => none
    | some et =>
      let st := if baseName (parentDir (parentDir (parentDir lockPath))) =
          "apps" then SnapType.app else SnapType.env
      let envPath :=
        if st = .env then parentDir lockPath ++ [reprSnapId sid ++ envSuffix et]
        else parentDir lockPath ++ [reprSnapId sid]
      some ⟨sid, et, baseName (parentDir lockPath), envPath, st⟩

/-- `SnapSpec.get_references` (snaps.py lines 196-210): when canonical, scan
the `*/*{lock_suffix}` glob below `snap_path.parent.parent` for symlinked
lock files resolving to this lock file whose names parse as snap ids, and
rebuild their `SnapSpec`s. -/
def getReferences (hashFn : String → String) (fs : FS) (s : SnapSpec) :
    List SnapSpec :=
  if isCanon hashFn fs s then
    let base := parentDir (parentDir s.snapPath)
    fs.filterMap (fun e =>
      if e.1.length = base.length + 2 ∧ base.isPrefixOf e.1 ∧
          strEndsWith (baseName e.1) (lockSuffix s.envType) ∧
          isSymlink fs e.1 ∧ resolvePath fs e.1 = s.lockFile ∧
          (fromPrefix (baseName e.1)).isSome then
        fromLockPath e.1
      else none)
  else []

/-- State of the `remove` deletion loop: the filesystem so far and the
first raised error, if any (later iterations do not run once an exception
has been raised). -/
structure RemoveSt where
  fs : FS
  err : Option SnapErr

/-- One iteration of the `remove` deletion loop (snaps.py lines 220-226):
skip the lock file when `keep_lock`; `shutil.rmtree` a real directory;
otherwise `unlink`, which raises `FileNotFoundError` when the path has
already vanished (e.g. it lived inside a directory tree removed earlier in
the same loop). -/
def removeStep (s : SnapSpec) (keepLock : Bool) (acc : RemoveSt)
    (p : FsPath) : RemoveSt :=
  if acc.err.isSome then acc
  else if keepLock ∧ p = s.lockFile then acc
  else if ¬ isSymlink acc.fs p ∧ isDir acc.fs p then
    { acc with fs := fsEraseTree acc.fs p }
  else if fsLookup acc.fs p = none then { acc with err := some .fileNotFound }
  else { acc with fs := fsErase acc.fs p }

/-- `SnapSpec.remove` (snaps.py lines 212-226): refuse when references
exist (`SnapReferenceError`, nothing deleted), otherwise run the deletion
loop over the associated paths, propagating the first error. -/
def removeFS (hashFn : String → String) (fs : FS) (s : SnapSpec)
    (keepLock : Bool) : Except SnapErr FS :=
  if getReferences hashFn fs s ≠ [] then .error .snapReference
  else
    let r := (getPaths fs s).foldl (removeStep s keepLock) ⟨fs, none⟩
    match r.err with
    | some e => .error e
    | none => .ok r.fs

/-- The filesystem after calling `remove`, including the effects already
performed when it raised mid-loop (unchanged when it refused up front). -/
def removeRun (hashFn : String → String) (fs : FS) (s : SnapSpec)
    (keepLock : Bool) : FS :=
  if getReferences hashFn fs s ≠ [] then fs
  else ((getPaths fs s).foldl (removeStep s keepLock) ⟨fs, none⟩).fs

/-- `SnapSpec.make_symlinked` (snaps.py lines 300-322): map each of the
source's paths to `{parent.parent}/{name}/{filename with the source id
replaced by the new id}`, require the lock file to be among them, then
create each symlink. -/
def makeSymlinked (fs : FS) (source : SnapSpec) (name : String)
    (newId : SnapId) : Except SnapErr FS :=
  let pm := (getPaths fs source).map (fun sp =>
    (sp, parentDir (parentDir sp) ++ [name,
      pyReplace (baseName sp) (reprSnapId source.snapId) (reprSnapId newId)]))
  if (pm.filter (fun e => e.1 = source.lockFile)).isEmpty then
    .error .missingLock
  else
    pm.foldlM (fun acc e => symlinkCreate acc e.2 e.1) fs

/-- `SnapSpec.dedupe` (snaps.py lines 228-248), returning the Python result
together with the new filesystem state. -/
def dedupeFS (hashFn : String → String) (fs : FS) (s : SnapSpec) :
    Except SnapErr (Bool × FS) :=
  match lockHashLink hashFn fs s with
  | none => .error .unreadableLock
  | some hl =>
    if pathExists fs hl then
      match fromLockPath (resolvePath fs hl) with
      | none => .error .fileNotFound
      | some prev =>
        if s = prev then .ok (false, fs)
        else if ¬ pathExists fs prev.snapPath then
          (symlinkCreate (fsErase fs hl) hl s.lockFile).map
            (fun fs2 => (false, fs2))
        else
          match removeFS hashFn fs s false with
          | .error e => .error e
          | .ok fs1 =>
            (makeSymlinked fs1 prev s.name s.snapId).map (fun fs2 => (true, fs2))
    else
      match mkdirExistOk fs (parentDir hl) with
      | .error e => .error e
      | .ok fs1 =>
        (symlinkCreate fs1 hl s.lockFile).map (fun fs2 => (false, fs2))

/-! ### Failure stashing (snaps.py `stash_failed`), as a filesystem-effect
trace for the ordering claim -/

inductive Effect where
  | unlink (p : FsPath)
  | mkdirE (p : FsPath)
  | move (src dst : FsPath)
  | symlinkE (p target : FsPath)
  deriving DecidableEq, Repr

structure StashSt where
  fs : FS
  trace : List Effect
  stashed : List FsPath
  aborted : Bool

/-- The first `stash_failed` loop (snaps.py lines 267-272): move each
non-symlink associated file into the stash, preserving layout relative to
the environment directory; a vanished file aborts (`shutil.move` raises). -/
def stashMoveStep (envDir stashDir : FsPath) (acc : StashSt) (fp : FsPath) :
    StashSt :=
  if acc.aborted then acc
  else if isSymlink acc.fs fp then acc
  else if fsLookup acc.fs fp = none then { acc with aborted := true }
  else
    let stashPath := stashDir ++ fp.drop envDir.length
    { acc with
      fs := movePath acc.fs fp stashPath
      trace := acc.trace ++ [Effect.move fp stashPath]
      stashed := acc.stashed ++ [stashPath] }

/-- The second `stash_failed` loop (snaps.py lines 273-283): re-create each
associated symlink inside the stash — pointed at the stashed copy of its
target when the target or one of its ancestors was moved in this same
operation — then unlink the original; a collision or missing parent aborts
(`symlink_to` raises). -/
def stashLinkStep (envDir stashDir : FsPath) (acc : StashSt) (fp : FsPath) :
    StashSt :=
  if acc.aborted then acc
  else if ¬ isSymlink acc.fs fp then acc
  else
    let stashPath := stashDir ++ fp.drop envDir.length
    let tgt := resolvePath acc.fs fp
    let tgt2 :=
      if tgt ∈ acc.stashed ∨
          acc.stashed.any (fun q => q.isPrefixOf tgt ∧ ¬ q = tgt) then
        stashDir ++ tgt.drop envDir.length
      else tgt
    if fsLookup acc.fs stashPath ≠ none ∨ ¬ isDir acc.fs (parentDir stashPath)
    then { acc with aborted := true }
    else { acc with
      fs := fsErase (fsInsert acc.fs stashPath (.symlink tgt2)) fp
      trace := acc.trace ++ [Effect.symlinkE stashPath tgt2, Effect.unlink fp] }

/-- `SnapSpec.stash_failed` (snaps.py lines 250-283), recording its
filesystem effects in order.  The registry detach happens first when this
snapshot is canonical; then the associated files are listed, the stash
directory created, and the two loops above run.  A failing step aborts the
remainder, leaving the effects already performed. -/
def stashFailedRun (hashFn : String → String) (fs : FS) (s : SnapSpec) :
    FS × List Effect :=
  let st0 : FS × List Effect :=
    match lockHashLink hashFn fs s with
    | none => (fs, [])
    | some hl =>
      if pathExists fs hl ∧ resolvePath fs hl = s.lockFile then
        (fsErase fs hl, [Effect.unlink hl])
      else (fs, [])
  let assoc := getPaths st0.1 s
  if assoc.isEmpty then st0
  else
    let envDir := parentDir s.snapPath
    let stashDir := envDir ++ [".failed_" ++ reprSnapId s.snapId]
    if ¬ (fsLookup st0.1 stashDir = none ∧ isDir st0.1 envDir) then st0
    else
      let step1 := assoc.foldl (stashMoveStep envDir stashDir)
        ⟨fsInsert st0.1 stashDir .dir, st0.2 ++ [Effect.mkdirE stashDir], [], false⟩
      let step2 := assoc.foldl (stashLinkStep envDir stashDir) step1
      (step2.fs, step2.trace)

/-! ### A concrete deduplicated pair, used as witness scenario -/

/-- A digest function that is constant, hence trivially equal on equal
normalized content. -/
def hashConst : String → String := fun _ => "H"

/-- Root directory name per snapshot kind (`envs` / `apps`). -/
def rootOf : SnapType → String
  | .env => "envs"
  | .app => "apps"

/-- The `SnapSpec` of a snapshot at the conventional location
`{root}/{backend}/{name}/{id}{env_suffix}`. -/
def mkSpec (e : EnvType) (st : SnapType) (n : String) (i : SnapId) : SnapSpec :=
  ⟨i, e, n, [rootOf st, e.value, n, reprSnapId i ++ envSuffix e], st⟩

/-- The snapshot files a successful build leaves on disk, one node per
`get_paths` candidate: the artifact (a directory, or the image file for a
container-image environment), the per-shell activation scripts, the lock
file with the given content, and the backend side files (the spack
`{id}-env` build directory is a directory, the rest regular files). -/
def freshSnapFiles (s : SnapSpec) (content : String) : FS :=
  (getPathsCandidates s).map (fun p =>
    (p, if p = s.snapPath then
          (if s.snapType = .env ∧ s.envType = .apptainer then Node.file "image"
           else Node.dir)
        else if p = s.lockFile then Node.file content
        else if baseName p = reprSnapId s.snapId ++ "-env" then Node.dir
        else Node.file "aux"))

/-- The directory skeleton above two snapshots of the same backend. -/
def baseDirs (st : SnapType) (e : EnvType) (nA nB : String) : FS :=
  [([rootOf st], .dir), ([rootOf st, e.value], .dir),
   ([rootOf st, e.value, nA], .dir), ([rootOf st, e.value, nB], .dir)]

/-- Fresh post-build state holding two snapshots (no registry yet). -/
def pairFS (e : EnvType) (st : SnapType) (nA nB : String) (iA iB : SnapId)
    (cA cB : String) : FS :=
  baseDirs st e nA nB ++ freshSnapFiles (mkSpec e st nA iA) cA ++
    freshSnapFiles (mkSpec e st nB iB) cB

/-- Representative distinct ids for the concrete scenarios. -/
def idA0 : SnapId := ⟨⟨2024, 7, 1⟩, 0, none⟩

def idB0 : SnapId := ⟨⟨2024, 8, 1⟩, 0, none⟩

/-- The concrete canonical snapshot of the witness scenario. -/
def specA0 : SnapSpec := mkSpec .spack .env "enva" idA0

/-- The concrete duplicate snapshot of the witness scenario. -/
def specB0 : SnapSpec := mkSpec .spack .env "envb" idB0

/-- The witness state: both snapshots built fresh with identical lock
content. -/
def pairFS0 : FS := pairFS .spack .env "enva" "envb" idA0 idB0 "lockdata" "lockdata"

/-- The state after `specA0.dedupe()` registered it as canonical. -/
def dedupedA0 : FS :=
  match dedupeFS hashConst pairFS0 specA0 with
  | .ok (_, fs) => fs
  | .error _ => []

/-- The state after `specB0.dedupe()` collapsed it into symlinks. -/
def dedupedAB0 : FS :=
  match dedupeFS hashConst dedupedA0 specB0 with
  | .ok (_, fs) => fs
  | .error _ => []

/-- The state after the duplicate and then the canonical snapshot were
removed (`keep_lock=False` for the canonical one): the registry symlink for
hash `H` is now dangling. -/
def danglingFS0 : FS :=
  removeRun hashConst (removeRun hashConst dedupedAB0 specB0 false) specA0
    false

def idC0 : SnapId := ⟨⟨2024, 9, 1⟩, 0, none⟩

/-- A later snapshot built with the same lock content as the removed
canonical one. -/
def specC0 : SnapSpec := mkSpec .spack .env "envc" idC0

/-- The state after that later build, next to the dangling registry
entry. -/
def laterBuildFS0 : FS :=
  ([rootOf .env, EnvType.value .spack, "envc"], Node.dir) ::
    (freshSnapFiles specC0 "lockdata" ++ danglingFS0)

/-! ## Lemmas: digit strings and parsing -/

lemma digitChar_isDigit {d : Nat} (h : d < 10) : (Nat.digitChar d).isDigit = true := by
  interval_cases d <;> decide

lemma digitChar_toNat {d : Nat} (h : d < 10) : (Nat.digitChar d).toNat = 48 + d := by
  interval_cases d <;> decide

lemma foldl_charsToNat (l : List Char) (a : Nat) :
    l.foldl (fun a c => 10 * a + (c.toNat - 48)) a =
      a * 10 ^ l.length + charsToNat l := by
  induction l generalizing a with
  | nil => simp [charsToNat]
  | cons c l ih =>
    show l.foldl _ (10 * a + (c.toNat - 48)) = _
    rw [ih]
    have : charsToNat (c :: l) = (c.toNat - 48) * 10 ^ l.length + charsToNat l := by
      show l.foldl _ (10 * 0 + (c.toNat - 48)) = _
      rw [ih]
      norm_num
    rw [this]
    simp [List.length_cons, pow_succ]
    ring

lemma charsToNat_append (xs ys : List Char) :
    charsToNat (xs ++ ys) = charsToNat xs * 10 ^ ys.length + charsToNat ys := by
  unfold charsToNat
  rw [List.foldl_append, foldl_charsToNat]
  rfl

lemma charsToNat_single (c : Char) : charsToNat [c] = c.toNat - 48 := by
  simp [charsToNat]

lemma natCharsAux_zero (fuel : Nat) : natCharsAux fuel 0 = [] := by
  cases fuel <;> simp [natCharsAux]

lemma natCharsAux_isDigit (fuel : Nat) :
    ∀ n, ∀ c ∈ natCharsAux fuel n, c.isDigit = true := by
  induction fuel with
  | zero => intro n c hc; simp [natCharsAux] at hc
  | succ fuel ih =>
    intro n c hc
    by_cases hn : n = 0
    · simp [natCharsAux, hn] at hc
    · simp only [natCharsAux, if_neg hn, List.mem_append, List.mem_singleton] at hc
      rcases hc with hc | hc
      · exact ih _ c hc
      · subst hc; exact digitChar_isDigit (Nat.mod_lt _ (by norm_num))

lemma natCharsAux_val (fuel : Nat) :
    ∀ n, n ≤ fuel → charsToNat (natCharsAux fuel n) = n := by
  induction fuel with
  | zero =>
    intro n hn
    interval_cases n
    simp [natCharsAux, charsToNat]
  | succ fuel ih =>
    intro n hn
    by_cases h0 : n = 0
    · simp [natCharsAux, h0, charsToNat]
    · have hdiv : n / 10 ≤ fuel := by
        have := Nat.div_lt_self (Nat.pos_of_ne_zero h0) (by norm_num : (1:Nat) < 10)
        omega
      rw [natCharsAux, if_neg h0, charsToNat_append, charsToNat_single,
        digitChar_toNat (Nat.mod_lt _ (by norm_num)), ih (n / 10) hdiv]
      simp only [List.length_singleton, pow_one]
      omega

lemma natChars_val (n : Nat) : charsToNat (natChars n) = n := by
  unfold natChars
  by_cases h : n = 0
  · simp [h, charsToNat]
  · rw [if_neg h, natCharsAux_val n n le_rfl]

lemma natChars_isDigit (n : Nat) : ∀ c ∈ natChars n, c.isDigit = true := by
  unfold natChars
  by_cases h : n = 0 <;> intro c hc
  · simp [h] at hc; subst hc; decide
  · rw [if_neg h] at hc; exact natCharsAux_isDigit n n c hc

lemma natChars_ne_nil (n : Nat) : natChars n ≠ [] := by
  unfold natChars
  by_cases h : n = 0
  · simp [h]
  · rw [if_neg h]
    obtain ⟨fuel, rfl⟩ : ∃ f, n = f + 1 := ⟨n - 1, by omega⟩
    simp [natCharsAux, h]

lemma natCharsAux_len_le (fuel : Nat) :
    ∀ k n, n < 10 ^ k → (natCharsAux fuel n).length ≤ k := by
  induction fuel with
  | zero => intro k n _; simp [natCharsAux]
  | succ fuel ih =>
    intro k n hk
    by_cases h0 : n = 0
    · simp [natCharsAux, h0]
    · have hk1 : k ≠ 0 := by
        rintro rfl; simp at hk; omega
      rw [natCharsAux, if_neg h0]
      have hdiv : n / 10 < 10 ^ (k - 1) := by
        rw [Nat.div_lt_iff_lt_mul (by norm_num)]
        calc n < 10 ^ k := hk
        _ = 10 ^ (k - 1) * 10 := by
          rw [← pow_succ]; congr 1; omega
      have := ih (k - 1) (n / 10) hdiv
      simp only [List.length_append, List.length_singleton]
      omega

lemma natCharsAux_len_ge (fuel : Nat) :
    ∀ k n, n ≤ fuel → 10 ^ k ≤ n → k + 1 ≤ (natCharsAux fuel n).length := by
  induction fuel with
  | zero =>
    intro k n hn hk
    exfalso
    have := Nat.one_le_two_pow (n := k)
    have : 1 ≤ 10 ^ k := Nat.one_le_pow _ _ (by norm_num)
    omega
  | succ fuel ih =>
    intro k n hn hk
    have h0 : n ≠ 0 := by
      have : 1 ≤ 10 ^ k := Nat.one_le_pow _ _ (by norm_num)
      omega
    rw [natCharsAux, if_neg h0]
    simp only [List.length_append, List.length_singleton]
    cases k with
    | zero => omega
    | succ j =>
      have hdiv : 10 ^ j ≤ n / 10 := by
        rw [Nat.le_div_iff_mul_le (by norm_num)]
        calc 10 ^ j * 10 = 10 ^ (j + 1) := (pow_succ 10 j).symm
        _ ≤ n := hk
      have hfuel : n / 10 ≤ fuel := by
        have := Nat.div_lt_self (Nat.pos_of_ne_zero h0) (by norm_num : (1:Nat) < 10)
        omega
      have := ih j (n / 10) hfuel hdiv
      omega

lemma natChars_len4 {y : Nat} (h1 : 1000 ≤ y) (h2 : y ≤ 9999) :
    (natChars y).length = 4 := by
  unfold natChars
  rw [if_neg (by omega)]
  have hle := natCharsAux_len_le y 4 y (by omega)
  have hge := natCharsAux_len_ge y 3 y le_rfl (by norm_num; omega)
  omega

lemma digit_not_alpha {c : Char} (h : c.isDigit = true) : c.isAlpha = false := by
  simp only [Char.isDigit, Char.isAlpha, Char.isUpper, Char.isLower,
    Bool.or_eq_false_iff, Bool.and_eq_true, Bool.and_eq_false_iff,
    decide_eq_true_eq, decide_eq_false_iff_not,
    UInt32.le_def, UInt32.lt_def, BitVec.le_def, BitVec.lt_def, not_le,
    (by decide : (UInt32.toBitVec 48).toNat = 48),
    (by decide : (UInt32.toBitVec 57).toNat = 57),
    (by decide : (UInt32.toBitVec 65).toNat = 65),
    (by decide : (UInt32.toBitVec 90).toNat = 90),
    (by decide : (UInt32.toBitVec 97).toNat = 97),
    (by decide : (UInt32.toBitVec 122).toNat = 122)] at *
  omega

lemma dot_not_digit : ('.' : Char).isDigit = false := by decide

lemma takeWhile_append_all {p : Char → Bool} (l r : List Char)
    (hl : ∀ c ∈ l, p c = true) (hr : ∀ c, r.head? = some c → p c = false) :
    (l ++ r).takeWhile p = l ∧ (l ++ r).dropWhile p = r := by
  induction l with
  | nil =>
    cases r with
    | nil => simp
    | cons c r' =>
      have := hr c rfl
      simp [List.takeWhile, List.dropWhile, this]
  | cons c l ih =>
    have hc := hl c (by simp)
    have ih' := ih (fun x hx => hl x (by simp [hx]))
    simp [List.takeWhile, List.dropWhile, hc, ih'.1, ih'.2]

lemma takeWhile_nil_of {p : Char → Bool} (l : List Char)
    (h : ∀ c, l.head? = some c → p c = false) :
    l.takeWhile p = [] ∧ l.dropWhile p = l := by
  have := takeWhile_append_all (p := p) [] l (by simp) h
  simpa using this

lemma head_not_alpha {l : List Char} (h : ∀ c ∈ l, c.isDigit = true) :
    ∀ c, l.head? = some c → c.isAlpha = false := by
  intro c hc
  apply digit_not_alpha
  apply h
  cases l with
  | nil => simp at hc
  | cons a t => simp at hc; simp [hc]

lemma head_not_digit_dot (l : List Char) :
    ∀ c, ('.' :: l).head? = some c → c.isDigit = false := by
  intro c hc
  simp at hc
  subst hc
  decide

lemma pad_isDigit {w : Nat} {cs : List Char} (h : ∀ c ∈ cs, c.isDigit = true) :
    ∀ c ∈ padChars w cs, c.isDigit = true := by
  intro c hc
  rw [padChars, List.mem_append] at hc
  rcases hc with hc | hc
  · rw [List.eq_of_mem_replicate hc]; decide
  · exact h c hc

lemma tsChars_isDigit (dt : Date) : ∀ c ∈ tsChars dt, c.isDigit = true := by
  intro c hc
  rw [tsChars, List.mem_append] at hc
  rcases hc with hc | hc
  · exact pad_isDigit (natChars_isDigit _) c hc
  · exact pad_isDigit (natChars_isDigit _) c hc

lemma tsChars_ne_nil (dt : Date) : tsChars dt ≠ [] := by
  rw [tsChars, padChars]
  intro h
  rcases List.append_eq_nil.mp h with ⟨-, h2⟩
  rcases List.append_eq_nil.mp h2 with ⟨-, h3⟩
  exact natChars_ne_nil _ h3

lemma list_len4 {α : Type} (l : List α) (h : l.length = 4) :
    ∃ a b c d, l = [a, b, c, d] := by
  rcases l with _ | ⟨a, _ | ⟨b, _ | ⟨c, _ | ⟨d, _ | ⟨e, t⟩⟩⟩⟩⟩ <;> simp_all

lemma parseTsYm_tsChars {y m : Nat} (h1 : 1000 ≤ y) (h2 : y ≤ 9999)
    (h3 : 1 ≤ m) (h4 : m ≤ 12) :
    parseTsYm (tsChars ⟨y, m, 1⟩) = some ⟨y, m, 1⟩ := by
  obtain ⟨a, b, c, d, habcd⟩ := list_len4 _ (natChars_len4 h1 h2)
  have hdig : ∀ x ∈ [a, b, c, d], x.isDigit = true := by
    intro x hx
    apply natChars_isDigit y
    rw [habcd]; exact hx
  have ha := hdig a (by simp); have hb := hdig b (by simp)
  have hc := hdig c (by simp); have hd := hdig d (by simp)
  have hval : charsToNat [a, b, c, d] = y := by rw [← habcd]; exact natChars_val y
  have hy : y ≠ 0 := by omega
  have hts : tsChars ⟨y, m, 1⟩ = a :: b :: c :: d :: padChars 2 (natChars m) := by
    show padChars 4 (natChars y) ++ _ = _
    rw [padChars, natChars_len4 h1 h2, habcd]
    simp
  rw [hts]
  interval_cases m <;>
    simp [parseTsYm, padChars, natChars, natCharsAux, Nat.digitChar, ha, hb, hc,
      hd, hval, hy] <;> decide

/-- C5: for every valid `SnapId` (timestamp truncated to year+month
granularity, non-negative version, label absent or a non-empty alphabetic
string), `SnapId.from_str(repr(x)) == x`: the canonical text form parses back
losslessly. -/
theorem snapid_repr_roundtrip (s : SnapId) (hv : validSnapId s) :
    fromStr (reprSnapId s) = some s := by
  obtain ⟨⟨y, m, d⟩, v, lbl⟩ := s
  obtain ⟨h1, h2, h3, h4, hd, hlbl⟩ := hv
  simp only at hd
  subst hd
  have hts := parseTsYm_tsChars h1 h2 h3 h4
  rcases lbl with _ | l
  · by_cases hv0 : v = 0
    · subst hv0
      have hsp := takeWhile_append_all (p := Char.isDigit) (tsChars ⟨y, m, 1⟩) []
        (tsChars_isDigit _) (by simp)
      simp only [List.append_nil] at hsp
      have hm : matchSnapIdFull (tsChars ⟨y, m, 1⟩) =
          some (tsChars ⟨y, m, 1⟩, none, none) := by
        simp [matchSnapIdFull, hsp.1, hsp.2, tsChars_ne_nil _]
      simp [fromStr, reprSnapId, reprChars, hm, hts]
    · have hsp := takeWhile_append_all (p := Char.isDigit) (tsChars ⟨y, m, 1⟩)
        ('.' :: natChars v) (tsChars_isDigit _) (head_not_digit_dot _)
      have hal := takeWhile_nil_of (p := Char.isAlpha) (natChars v)
        (head_not_alpha (natChars_isDigit v))
      have hdg := takeWhile_append_all (p := Char.isDigit) (natChars v) []
        (natChars_isDigit v) (by simp)
      simp only [List.append_nil] at hdg
      have hm : matchSnapIdFull (reprChars ⟨⟨y, m, 1⟩, v, none⟩) =
          some (tsChars ⟨y, m, 1⟩, none, some (natChars v)) := by
        simp [reprChars, hv0, matchSnapIdFull, hsp.1, hsp.2, tsChars_ne_nil _,
          hal.1, hal.2, hdg.1, hdg.2, natChars_ne_nil v]
      simp [fromStr, reprSnapId, hm, hts, natChars_val]
  · obtain ⟨hne, hal⟩ := hlbl
    obtain ⟨ld⟩ := l
    have hld : ld ≠ [] := by
      intro h
      exact hne (by simp [h])
    have hsp := takeWhile_append_all (p := Char.isDigit) (tsChars ⟨y, m, 1⟩)
      ('.' :: (ld ++ natChars v)) (tsChars_isDigit _) (head_not_digit_dot _)
    have halsp := takeWhile_append_all (p := Char.isAlpha) ld (natChars v)
      hal (head_not_alpha (natChars_isDigit v))
    have hdg := takeWhile_append_all (p := Char.isDigit) (natChars v) []
      (natChars_isDigit v) (by simp)
    simp only [List.append_nil] at hdg
    have hm : matchSnapIdFull (reprChars ⟨⟨y, m, 1⟩, v, some ⟨ld⟩⟩) =
        some (tsChars ⟨y, m, 1⟩, some ld, some (natChars v)) := by
      simp [reprChars, matchSnapIdFull, hsp.1, hsp.2, tsChars_ne_nil _,
        halsp.1, halsp.2, hdg.1, hdg.2, natChars_ne_nil v, hld]
    simp [fromStr, reprSnapId, hm, hts, natChars_val]

/-! ## Lemmas: the SnapId comparison -/

lemma dateLt_iff {a b : Date} : dateLt a b = true ↔
    (a.year < b.year ∨ (a.year = b.year ∧
      (a.month < b.month ∨ (a.month = b.month ∧ a.day < b.day)))) := by
  simp [dateLt]

lemma charListLt_lex (a b : List Char) :
    charListLt a b = true ↔ List.Lex (· < ·) a b := by
  induction a generalizing b with
  | nil =>
    cases b with
    | nil => simp [charListLt]
    | cons y ys =>
      simp [charListLt]
      exact List.Lex.nil
  | cons x xs ih =>
    cases b with
    | nil => simp [charListLt]
    | cons y ys =>
      by_cases hxy : x < y
      · simp [charListLt, hxy]
        exact List.Lex.rel hxy
      · by_cases he : x = y
        · subst he
          simp [charListLt, hxy, ih]
          constructor
          · exact fun h => List.Lex.cons h
          · intro h
            cases h with
            | cons h => exact h
            | rel h => exact absurd h hxy
        · simp [charListLt, hxy, he]
          intro h
          cases h with
          | cons h => exact he rfl
          | rel h => exact hxy h

lemma charListLt_irrefl (l : List Char) : charListLt l l = false := by
  induction l with
  | nil => rfl
  | cons x xs ih => simp [charListLt, ih]

lemma strLt_irrefl (s : String) : strLt s s = false := charListLt_irrefl s.data

lemma charListLt_asymm : ∀ a b : List Char,
    charListLt a b = true → charListLt b a = false := by
  intro a
  induction a with
  | nil => intro b _; cases b <;> rfl
  | cons x xs ih =>
    intro b hab
    cases b with
    | nil => simp [charListLt] at hab
    | cons y ys =>
      by_cases hxy : x < y
      · have : ¬ y < x := lt_asymm hxy
        simp [charListLt, this, (ne_of_lt hxy).symm]
      · by_cases he : x = y
        · subst he
          simp [charListLt, hxy] at hab ⊢
          exact ih ys hab
        · simp [charListLt, hxy, he] at hab

lemma strLt_asymm {a b : String} (h : strLt a b = true) : strLt b a = false :=
  charListLt_asymm a.data b.data h

lemma charListLt_trans : ∀ a b c : List Char,
    charListLt a b = true → charListLt b c = true → charListLt a c = true := by
  intro a
  induction a with
  | nil =>
    intro b c hab hbc
    cases b with
    | nil => exact hbc
    | cons y ys => cases c with
      | nil => simp [charListLt] at hbc
      | cons z zs => rfl
  | cons x xs ih =>
    intro b c hab hbc
    cases b with
    | nil => simp [charListLt] at hab
    | cons y ys =>
      cases c with
      | nil => simp [charListLt] at hbc
      | cons z zs =>
        simp only [charListLt] at hab hbc ⊢
        split at hab
        · rename_i hxy
          split at hbc
          · rename_i hyz
            simp [lt_trans hxy hyz]
          · split at hbc
            · rename_i hyz
              subst hyz
              simp [hxy]
            · exact absurd hbc (by simp)
        · split at hab
          · rename_i hxy
            subst hxy
            split at hbc
            · rename_i hyz
              simp [hyz]
            · split at hbc
              · rename_i hyz
                subst hyz
                simp only [if_neg (lt_irrefl _)]
                simpa using ih _ _ hab hbc
              · exact absurd hbc (by simp)
          · exact absurd hab (by simp)

lemma strLt_trans {a b c : String} (h1 : strLt a b = true)
    (h2 : strLt b c = true) : strLt a c = true :=
  charListLt_trans a.data b.data c.data h1 h2

lemma charListLt_total : ∀ a b : List Char,
    a = b ∨ charListLt a b = true ∨ charListLt b a = true := by
  intro a
  induction a with
  | nil => intro b; cases b <;> simp [charListLt]
  | cons x xs ih =>
    intro b
    cases b with
    | nil => simp [charListLt]
    | cons y ys =>
      rcases lt_trichotomy x y with h | h | h
      · simp [charListLt, h]
      · subst h
        rcases ih ys with h | h | h
        · simp [h]
        · right; left; simp [charListLt, h]
        · right; right; simp [charListLt, h]
      · right; right; simp [charListLt, h]

lemma strLt_total (a b : String) :
    a = b ∨ strLt a b = true ∨ strLt b a = true := by
  obtain ⟨la⟩ := a; obtain ⟨lb⟩ := b
  rcases charListLt_total la lb with h | h | h
  · left; rw [h]
  · right; left; exact h
  · right; right; exact h

lemma snapIdLt_irrefl (a : SnapId) : ¬ snapIdLt a a := by
  intro h
  rcases h with h | ⟨-, h | ⟨-, h⟩⟩
  · rw [dateLt_iff] at h; omega
  · rw [strLt_irrefl] at h; exact Bool.false_ne_true h
  · omega

lemma snapIdLt_asymm {a b : SnapId} (hab : snapIdLt a b) : ¬ snapIdLt b a := by
  intro hba
  rcases hab with h1 | ⟨e1, h1⟩ <;> rcases hba with h2 | ⟨e2, h2⟩
  · rw [dateLt_iff] at h1 h2
    omega
  · rw [e2, dateLt_iff] at h1; omega
  · rw [e1, dateLt_iff] at h2; omega
  · rcases h1 with h1 | ⟨f1, h1⟩ <;> rcases h2 with h2 | ⟨f2, h2⟩
    · rw [strLt_asymm h1] at h2; exact Bool.false_ne_true h2
    · rw [f2] at h1; rw [strLt_irrefl] at h1; exact Bool.false_ne_true h1
    · rw [f1] at h2; rw [strLt_irrefl] at h2; exact Bool.false_ne_true h2
    · omega

lemma dateLt_trans {a b c : Date} (h1 : dateLt a b = true)
    (h2 : dateLt b c = true) : dateLt a c = true := by
  rw [dateLt_iff] at *
  omega

lemma snapIdLt_trans {a b c : SnapId} (hab : snapIdLt a b)
    (hbc : snapIdLt b c) : snapIdLt a c := by
  rcases hab with h1 | ⟨e1, h1⟩
  · rcases hbc with h2 | ⟨e2, h2⟩
    · exact Or.inl (dateLt_trans h1 h2)
    · exact Or.inl (e2 ▸ h1)
  · rcases hbc with h2 | ⟨e2, h2⟩
    · exact Or.inl (e1 ▸ h2)
    · refine Or.inr ⟨e1.trans e2, ?_⟩
      rcases h1 with h1 | ⟨f1, h1⟩
      · rcases h2 with h2 | ⟨f2, h2⟩
        · exact Or.inl (strLt_trans h1 h2)
        · exact Or.inl (f2 ▸ h1)
      · rcases h2 with h2 | ⟨f2, h2⟩
        · exact Or.inl (f1 ▸ h2)
        · exact Or.inr ⟨f1.trans f2, lt_trans h1 h2⟩

lemma dateLt_or_eq_or_gt (a b : Date) :
    dateLt a b = true ∨ a = b ∨ dateLt b a = true := by
  obtain ⟨ya, ma, da⟩ := a; obtain ⟨yb, mb, db⟩ := b
  simp only [dateLt_iff, Date.mk.injEq]
  omega

lemma label_eq_of_getD {a b : Option String} (ha : a ≠ some "")
    (hb : b ≠ some "") (h : a.getD "" = b.getD "") : a = b := by
  rcases a with _ | la <;> rcases b with _ | lb <;> simp_all

/-- C6 (amended): `SnapId.__lt__` is irreflexive, asymmetric and transitive,
and agrees with the lexicographic order on `(time_stamp, label-or-"",
version)`, for all values; exactly one of `a < b`, `a == b`, `b < a` holds
whenever neither label is the empty string (an id labeled `""` and an
unlabeled id at the same timestamp/version are unequal yet compare neither
way). -/
theorem snapid_order_props :
    (∀ a : SnapId, ¬ snapIdLt a a) ∧
    (∀ a b : SnapId, snapIdLt a b → ¬ snapIdLt b a) ∧
    (∀ a b c : SnapId, snapIdLt a b → snapIdLt b c → snapIdLt a c) ∧
    (∀ a b : SnapId, snapIdLt a b ↔ tripleLex a b) ∧
    (∀ a b : SnapId, a.label ≠ some "" → b.label ≠ some "" →
      (snapIdLt a b ∧ a ≠ b ∧ ¬ snapIdLt b a) ∨
      (¬ snapIdLt a b ∧ a = b ∧ ¬ snapIdLt b a) ∨
      (¬ snapIdLt a b ∧ a ≠ b ∧ snapIdLt b a)) := by
  refine ⟨snapIdLt_irrefl, fun a b h => snapIdLt_asymm h,
    fun a b c h1 h2 => snapIdLt_trans h1 h2, ?_, ?_⟩
  · intro a b
    show _ ↔ Prod.Lex _ _ _ _
    rw [Prod.lex_def, Prod.lex_def]
    rfl
  · intro a b ha hb
    rcases dateLt_or_eq_or_gt a.ts b.ts with hts | hts | hts
    · have hab : snapIdLt a b := Or.inl hts
      exact Or.inl ⟨hab, fun he => snapIdLt_irrefl a (he ▸ hab), snapIdLt_asymm hab⟩
    · rcases strLt_total (a.label.getD "") (b.label.getD "") with hl | hl | hl
      · rcases Nat.lt_trichotomy a.version b.version with hv | hv | hv
        · have hab : snapIdLt a b := Or.inr ⟨hts, Or.inr ⟨hl, hv⟩⟩
          exact Or.inl ⟨hab, fun he => snapIdLt_irrefl a (he ▸ hab), snapIdLt_asymm hab⟩
        · have heq : a = b := by
            obtain ⟨ta, va, la⟩ := a; obtain ⟨tb, vb, lb⟩ := b
            simp only at hts hl hv
            simp only [SnapId.mk.injEq]
            exact ⟨hts, hv, label_eq_of_getD ha hb hl⟩
          subst heq
          exact Or.inr (Or.inl ⟨snapIdLt_irrefl a, rfl, snapIdLt_irrefl a⟩)
        · have hba : snapIdLt b a := Or.inr ⟨hts.symm, Or.inr ⟨hl.symm, hv⟩⟩
          exact Or.inr (Or.inr ⟨snapIdLt_asymm hba,
            fun he => snapIdLt_irrefl a (he ▸ hba), hba⟩)
      · have hab : snapIdLt a b := Or.inr ⟨hts, Or.inl hl⟩
        exact Or.inl ⟨hab, fun he => snapIdLt_irrefl a (he ▸ hab), snapIdLt_asymm hab⟩
      · have hba : snapIdLt b a := Or.inr ⟨hts.symm, Or.inl hl⟩
        exact Or.inr (Or.inr ⟨snapIdLt_asymm hba,
          fun he => snapIdLt_irrefl a (he ▸ hba), hba⟩)
    · have hba : snapIdLt b a := Or.inl hts
      exact Or.inr (Or.inr ⟨snapIdLt_asymm hba,
        fun he => snapIdLt_irrefl a (he ▸ hba), hba⟩)

/-- Witness for C6 at concrete ids. -/
theorem snapid_order_witness :
    ((⟨⟨2024, 7, 1⟩, 0, none⟩ : SnapId).label ≠ some "" ∧
      (⟨⟨2024, 7, 1⟩, 1, none⟩ : SnapId).label ≠ some "") ∧
    ((snapIdLt ⟨⟨2024, 7, 1⟩, 0, none⟩ ⟨⟨2024, 7, 1⟩, 1, none⟩ ∧
        (⟨⟨2024, 7, 1⟩, 0, none⟩ : SnapId) ≠ ⟨⟨2024, 7, 1⟩, 1, none⟩ ∧
        ¬ snapIdLt ⟨⟨2024, 7, 1⟩, 1, none⟩ ⟨⟨2024, 7, 1⟩, 0, none⟩) ∨
      (¬ snapIdLt ⟨⟨2024, 7, 1⟩, 0, none⟩ ⟨⟨2024, 7, 1⟩, 1, none⟩ ∧
        (⟨⟨2024, 7, 1⟩, 0, none⟩ : SnapId) = ⟨⟨2024, 7, 1⟩, 1, none⟩ ∧
        ¬ snapIdLt ⟨⟨2024, 7, 1⟩, 1, none⟩ ⟨⟨2024, 7, 1⟩, 0, none⟩) ∨
      (¬ snapIdLt ⟨⟨2024, 7, 1⟩, 0, none⟩ ⟨⟨2024, 7, 1⟩, 1, none⟩ ∧
        (⟨⟨2024, 7, 1⟩, 0, none⟩ : SnapId) ≠ ⟨⟨2024, 7, 1⟩, 1, none⟩ ∧
        snapIdLt ⟨⟨2024, 7, 1⟩, 1, none⟩ ⟨⟨2024, 7, 1⟩, 0, none⟩)) :=
  ⟨⟨by decide, by decide⟩,
    snapid_order_props.2.2.2.2 _ _ (by decide) (by decide)⟩

/-- Counterexample for C6 as stated: for `a = (202407, 0, None)` and
`b = (202407, 0, "")` none of `a < b`, `a == b`, `b < a` holds, so the
comparison is not a strict total order on all `SnapId` values. -/
theorem snapid_order_not_total :
    ¬ snapIdLt ⟨⟨2024, 7, 1⟩, 0, none⟩ ⟨⟨2024, 7, 1⟩, 0, some ""⟩ ∧
    ¬ snapIdLt ⟨⟨2024, 7, 1⟩, 0, some ""⟩ ⟨⟨2024, 7, 1⟩, 0, none⟩ ∧
    (⟨⟨2024, 7, 1⟩, 0, none⟩ : SnapId) ≠ ⟨⟨2024, 7, 1⟩, 0, some ""⟩ := by
  refine ⟨by decide, by decide, by decide⟩

/-- Witness for C5 at a concrete labeled, versioned id. -/
theorem snapid_repr_roundtrip_witness :
    validSnapId ⟨⟨2024, 7, 1⟩, 2, some "label"⟩ ∧
      fromStr (reprSnapId ⟨⟨2024, 7, 1⟩, 2, some "label"⟩) =
        some ⟨⟨2024, 7, 1⟩, 2, some "label"⟩ := by
  have hv : validSnapId ⟨⟨2024, 7, 1⟩, 2, some "label"⟩ := by
    refine ⟨by norm_num, by norm_num, by norm_num, by norm_num, rfl, by decide, ?_⟩
    decide
  exact ⟨hv, snapid_repr_roundtrip _ hv⟩

/-! ## Lemmas: the snapshot allocator's probing phase -/

lemma bump_foldl (l : List Nat) (a : Nat) :
    a ≤ l.foldl (fun m v => if m ≤ v then v + 1 else m) a ∧
    (∀ v ∈ l, v < l.foldl (fun m v => if m ≤ v then v + 1 else m) a) ∧
    (l.foldl (fun m v => if m ≤ v then v + 1 else m) a = a ∨
      ∃ v ∈ l, l.foldl (fun m v => if m ≤ v then v + 1 else m) a = v + 1) := by
  induction l generalizing a with
  | nil => simp
  | cons x xs ih =>
    simp only [List.foldl_cons]
    generalize hbdef : (if a ≤ x then x + 1 else a) = b
    obtain ⟨h1, h2, h3⟩ := ih b
    have hb1 : a ≤ b := by rw [← hbdef]; split <;> omega
    have hb2 : x < b := by rw [← hbdef]; split <;> omega
    refine ⟨le_trans hb1 h1, ?_, ?_⟩
    · intro v hv
      rcases List.mem_cons.mp hv with rfl | hv
      · exact lt_of_lt_of_le hb2 h1
      · exact h2 v hv
    · rcases h3 with h3 | ⟨v, hv, h3⟩
      · by_cases hax : a ≤ x
        · have hbx : b = x + 1 := by rw [← hbdef, if_pos hax]
          exact Or.inr ⟨x, by simp, h3.trans hbx⟩
        · have hba : b = a := by rw [← hbdef, if_neg hax]
          exact Or.inl (h3.trans hba)
      · exact Or.inr ⟨v, by simp [hv], h3⟩

lemma foldl_probe_filterMap (f : String → Option SnapId) (label : Option String)
    (l : List String) (a : Nat) :
    l.foldl (fun m nm => match f nm with
      | none => m
      | some sid => probeStep label m sid) a =
    (l.filterMap (fun nm => match f nm with
      | none => none
      | some sid => if sid.label = label then some sid.version else none)).foldl
      (fun m v => if m ≤ v then v + 1 else m) a := by
  induction l generalizing a with
  | nil => rfl
  | cons nm l ih =>
    simp only [List.foldl_cons, List.filterMap_cons]
    cases hf : f nm with
    | none =>
      simp only [hf]
      exact ih a
    | some sid =>
      simp only [hf]
      by_cases hl : sid.label = label
      · rw [if_pos hl]
        simp only [List.foldl_cons]
        have hstep : probeStep label a sid =
            if a ≤ sid.version then sid.version + 1 else a := by
          rw [probeStep, if_neg (by simp [hl])]
        rw [hstep]
        exact ih _
      · rw [if_neg hl]
        have hstep : probeStep label a sid = a := by
          rw [probeStep, if_pos (by simp [hl])]
        rw [hstep]
        exact ih a

/-- C7 (amended): the allocator's probing phase computes one plus the
maximum version already used or reserved for the given timestamp and label
(0 when none), i.e. the next version in sequence — not the minimum unused
version the spec describes. -/
theorem alloc_probe_next_version (site inprog : List String)
    (label : Option String) :
    (∀ v ∈ probeMatching site inprog label, v < allocProbe site inprog label) ∧
    (allocProbe site inprog label = 0 ∨
      ∃ v ∈ probeMatching site inprog label,
        allocProbe site inprog label = v + 1) := by
  have he : allocProbe site inprog label =
      (probeMatching site inprog label).foldl
        (fun m v => if m ≤ v then v + 1 else m) 0 := by
    rw [allocProbe, probeMatching, List.foldl_append,
      foldl_probe_filterMap, foldl_probe_filterMap]
  rw [he]
  exact ⟨(bump_foldl _ 0).2.1, (bump_foldl _ 0).2.2⟩

/-- Witness for C7's amended claim on a concrete scan. -/
theorem alloc_probe_next_version_witness :
    (0 ∈ probeMatching ["202407-site_conf.yaml"] [] none) ∧
      0 < allocProbe ["202407-site_conf.yaml"] [] none :=
  ⟨by decide, (alloc_probe_next_version _ _ _).1 0 (by decide)⟩

/-- Counterexample for C7 as stated: with versions 0 and 2 already used for
the timestamp (and nothing reserved), the code's first candidate is 3
(max+1), not the minimum unused version 1. -/
theorem alloc_probe_counterexample :
    allocProbe ["202407-site_conf.yaml", "202407.2-site_conf.yaml"] [] none = 3 ∧
    probeMatching ["202407-site_conf.yaml", "202407.2-site_conf.yaml"] []
      none = [0, 2] ∧
    minUnusedVersion [0, 2] = 1 ∧
    allocProbe ["202407-site_conf.yaml", "202407.2-site_conf.yaml"] [] none ≠
      minUnusedVersion [0, 2] := by
  refine ⟨by decide, by decide, by decide, by decide⟩

/-! ## Lemmas: channel selection -/

/-- C3: with unlabeled ids at 2024-01, 2024-04, 2024-07, 2024-10, a
3-month channel period and now = 2024-08-15, the boundary is 2024-07-01 and
the selected id is the one at 2024-07, which is at minimum absolute distance
from the boundary. -/
theorem channel_selection_example :
    channelBoundary 3 ⟨2024, 8, 15⟩ = some ⟨2024, 7, 1⟩ ∧
    selectSnap [⟨⟨2024, 1, 1⟩, 0, none⟩, ⟨⟨2024, 4, 1⟩, 0, none⟩,
        ⟨⟨2024, 7, 1⟩, 0, none⟩, ⟨⟨2024, 10, 1⟩, 0, none⟩] 3 ⟨2024, 8, 15⟩ =
      some ⟨⟨2024, 7, 1⟩, 0, none⟩ ∧
    ∀ c ∈ [⟨⟨2024, 1, 1⟩, 0, none⟩, ⟨⟨2024, 4, 1⟩, 0, none⟩,
        ⟨⟨2024, 7, 1⟩, 0, none⟩, (⟨⟨2024, 10, 1⟩, 0, none⟩ : SnapId)],
      distDays (⟨2024, 7, 1⟩ : Date) ⟨2024, 7, 1⟩ ≤ distDays c.ts ⟨2024, 7, 1⟩ := by
  refine ⟨by decide, by decide, by decide⟩

lemma foldl_pick_mem (g : SnapId → SnapId → SnapId)
    (hg : ∀ a b, g a b = a ∨ g a b = b) :
    ∀ (l : List SnapId) (acc : SnapId), l.foldl g acc = acc ∨ l.foldl g acc ∈ l := by
  intro l
  induction l with
  | nil => intro acc; left; rfl
  | cons y ys ih =>
    intro acc
    simp only [List.foldl_cons]
    rcases ih (g acc y) with h | h
    · rcases hg acc y with h2 | h2
      · left; rw [h, h2]
      · right; rw [h, h2]; simp
    · right; simp [h]

lemma selectSnap_mem {avail : List SnapId} {months : Nat} {now : Date}
    {s : SnapId} (h : selectSnap avail months now = some s) : s ∈ avail := by
  unfold selectSnap at h
  cases avail with
  | nil => simp at h
  | cons x rest =>
    cases hb : channelBoundary months now with
    | none => rw [hb] at h; simp at h
    | some b =>
      rw [hb] at h
      simp only [Option.some.injEq] at h
      subst h
      have hmem := foldl_pick_mem (fun best c =>
        if distDays c.ts b < distDays best.ts b ∨
            (distDays c.ts b = distDays best.ts b ∧ snapIdLt best c)
        then c else best) (fun a c => by
          by_cases hc : distDays c.ts b < distDays a.ts b ∨
              (distDays c.ts b = distDays a.ts b ∧ snapIdLt a c)
          · right; simp [hc]
          · left; simp [hc]) rest x
      rcases hmem with h | h
      · rw [h]; simp
      · simp [h]

/-- C8: when `get_snap` selects automatically (no explicit id), the returned
id never carries a label — labeled snapshots are excluded from channel-based
selection — while an explicitly requested id that is available is returned
as-is. -/
theorem get_snap_label_policy :
    (∀ (avail : List SnapId) (months : Nat) (now : Date) (s : SnapId),
      getSnap avail months now none = .ok s → s.label = none) ∧
    (∀ (avail : List SnapId) (months : Nat) (now : Date) (sid : SnapId),
      sid ∈ avail → getSnap avail months now (some sid) = .ok sid) := by
  constructor
  · intro avail months now s h
    rw [getSnap] at h
    by_cases he : avail.isEmpty
    · simp [he] at h
    · rw [if_neg (by simpa using he)] at h
      cases hs : selectSnap (avail.filter fun x => x.label = none) months now with
      | none => rw [hs] at h; simp at h
      | some t =>
        rw [hs] at h
        simp only [Except.ok.injEq] at h
        subst h
        have hf := List.mem_filter.mp (selectSnap_mem hs)
        simpa using hf.2
  · intro avail months now sid hmem
    rw [getSnap]
    rw [if_neg (by simp; rintro rfl; simp at hmem)]
    simp [hmem]

/-! ## Lemmas: supports_activation (C9) -/

/-- C9: `supports_activation` is a total boolean property that is false
exactly for container-image (apptainer) environment snapshots: every app
snapshot and every environment snapshot of the spack, python or conda
backends supports activation. -/
theorem supports_activation_spec :
    ∀ s : SnapSpec,
      (s.supportsActivation = false ↔
        (s.snapType = .env ∧ s.envType = .apptainer)) ∧
      (s.snapType = .app → s.supportsActivation = true) ∧
      ((s.envType = .spack ∨ s.envType = .python ∨ s.envType = .conda) →
        s.supportsActivation = true) := by
  intro s
  obtain ⟨i, et, nm, p, st⟩ := s
  cases st <;> cases et <;> simp [SnapSpec.supportsActivation]

/-- Witness for C9 at a concrete spack environment snapshot. -/
theorem supports_activation_spec_witness :
    (specA0.envType = .spack ∨ specA0.envType = .python ∨
      specA0.envType = .conda) ∧ specA0.supportsActivation = true :=
  ⟨Or.inl rfl, (supports_activation_spec specA0).2.2 (Or.inl rfl)⟩

/-! ## Lemmas: remove with live references (C2) -/

/-- C2: whenever `get_references()` is non-empty, `remove(keep_lock)` raises
`SnapReferenceError` and performs no filesystem change: the state afterwards
is the input state, in which every associated path still exists. -/
theorem remove_with_references_raises (hashFn : String → String) (fs : FS)
    (s : SnapSpec) (keepLock : Bool)
    (href : getReferences hashFn fs s ≠ []) :
    removeFS hashFn fs s keepLock = .error .snapReference ∧
    removeRun hashFn fs s keepLock = fs ∧
    ∀ p ∈ getPaths fs s, pathExists fs p = true := by
  have h1 : removeFS hashFn fs s keepLock = .error .snapReference := by
    rw [removeFS, if_pos href]
  refine ⟨h1, by rw [removeRun, if_pos href], fun p hp => ?_⟩
  exact (List.mem_filter.mp hp).2

/-- Witness for C2: in the concrete deduplicated state the canonical
snapshot has a live reference and `remove` raises. -/
theorem remove_with_references_raises_witness :
    getReferences hashConst dedupedAB0 specA0 ≠ [] ∧
      removeFS hashConst dedupedAB0 specA0 true = .error .snapReference :=
  ⟨by decide,
    (remove_with_references_raises hashConst dedupedAB0 specA0 true
      (by decide)).1⟩

/-! ## Lemmas: remove and the dedup registry (C10) -/

lemma fsLookup_filter_stable {fs : FS} {q : FsPath} {pred : FsPath × Node → Bool}
    (hq : ∀ n, fsLookup fs q = some n → pred (q, n) = true) :
    fsLookup (fs.filter pred) q = fsLookup fs q := by
  induction fs with
  | nil => rfl
  | cons e rest ih =>
    by_cases heq : q = e.1
    · have hp : pred e = true := by
        have := hq e.2 (by simp [fsLookup, heq])
        subst heq
        simpa using this
      rw [List.filter_cons_of_pos hp]
      simp [fsLookup, heq]
    · have h1 : fsLookup (e :: rest) q = fsLookup rest q := by
        simp [fsLookup, heq]
      by_cases hp : pred e = true
      · rw [List.filter_cons_of_pos hp, h1]
        rw [← ih fun n hn => hq n (by rw [h1]; exact hn)]
        simp [fsLookup, heq]
      · rw [List.filter_cons_of_neg (by simpa using hp), h1]
        exact ih fun n hn => hq n (by rw [h1]; exact hn)

lemma fsLookup_filter_none {fs : FS} {q : FsPath} {pred : FsPath × Node → Bool}
    (hq : fsLookup fs q = none) : fsLookup (fs.filter pred) q = none := by
  induction fs with
  | nil => rfl
  | cons e rest ih =>
    by_cases heq : q = e.1
    · simp [fsLookup, heq] at hq
    · have h1 : fsLookup rest q = none := by simpa [fsLookup, heq] using hq
      by_cases hp : pred e = true
      · rw [List.filter_cons_of_pos hp]
        simpa [fsLookup, heq] using ih h1
      · rw [List.filter_cons_of_neg (by simpa using hp)]
        exact ih h1

lemma fsLookup_fsErase_ne {fs : FS} {p q : FsPath} (h : ¬ q = p) :
    fsLookup (fsErase fs p) q = fsLookup fs q :=
  fsLookup_filter_stable (fun _ _ => by simpa using h)

lemma fsLookup_fsErase_self (fs : FS) (p : FsPath) :
    fsLookup (fsErase fs p) p = none := by
  induction fs with
  | nil => rfl
  | cons e rest ih =>
    by_cases he : e.1 = p
    · rw [fsErase, List.filter_cons_of_neg (by simpa using he)]
      rw [fsErase] at ih
      exact ih
    · rw [fsErase, List.filter_cons_of_pos (by simpa using he)]
      show (if p = e.1 then some e.2 else _) = none
      rw [if_neg (fun hh => he hh.symm)]
      rw [fsErase] at ih
      exact ih

lemma fsLookup_fsEraseTree_ne {fs : FS} {p q : FsPath}
    (h : ¬ p.isPrefixOf q = true) :
    fsLookup (fsEraseTree fs p) q = fsLookup fs q :=
  fsLookup_filter_stable (fun _ _ => by simpa using h)

lemma fsLookup_fsEraseTree_self (fs : FS) {p q : FsPath}
    (h : p.isPrefixOf q = true) : fsLookup (fsEraseTree fs p) q = none := by
  induction fs with
  | nil => rfl
  | cons e rest ih =>
    by_cases he : p.isPrefixOf e.1 = true
    · rw [fsEraseTree, List.filter_cons_of_neg (by simpa using he)]
      rw [fsEraseTree] at ih
      exact ih
    · rw [fsEraseTree, List.filter_cons_of_pos (by simpa using he)]
      have hne : ¬ q = e.1 := fun hq => he (hq ▸ h)
      show (if q = e.1 then some e.2 else _) = none
      rw [if_neg hne]
      rw [fsEraseTree] at ih
      exact ih

lemma removeStep_fs_cases (s : SnapSpec) (keepLock : Bool) (acc : RemoveSt)
    (p : FsPath) :
    (removeStep s keepLock acc p).fs = acc.fs ∨
    (removeStep s keepLock acc p).fs = fsEraseTree acc.fs p ∨
    (removeStep s keepLock acc p).fs = fsErase acc.fs p := by
  rw [removeStep]
  repeat' split
  all_goals simp

lemma removeFold_lookup (s : SnapSpec) (keepLock : Bool) (q : FsPath) :
    ∀ (paths : List FsPath) (acc : RemoveSt),
      (∀ p ∈ paths, ¬ p.isPrefixOf q = true ∧ ¬ q = p) →
      fsLookup (paths.foldl (removeStep s keepLock) acc).fs q =
        fsLookup acc.fs q := by
  intro paths
  induction paths with
  | nil => intro acc _; rfl
  | cons p ps ih =>
    intro acc hq
    obtain ⟨hp1, hp2⟩ := hq p (by simp)
    have hstep : fsLookup (removeStep s keepLock acc p).fs q =
        fsLookup acc.fs q := by
      rcases removeStep_fs_cases s keepLock acc p with h | h | h
      · rw [h]
      · rw [h]; exact fsLookup_fsEraseTree_ne hp1
      · rw [h]; exact fsLookup_fsErase_ne hp2
    rw [List.foldl_cons, ih _ fun r hr => hq r (by simp [hr]), hstep]

lemma removeFold_none (s : SnapSpec) (keepLock : Bool) (q : FsPath) :
    ∀ (paths : List FsPath) (acc : RemoveSt), fsLookup acc.fs q = none →
      fsLookup (paths.foldl (removeStep s keepLock) acc).fs q = none := by
  intro paths
  induction paths with
  | nil => intro acc h; exact h
  | cons p ps ih =>
    intro acc h
    rw [List.foldl_cons]
    refine ih _ ?_
    rcases removeStep_fs_cases s keepLock acc p with hc | hc | hc <;> rw [hc]
    · exact h
    · exact fsLookup_filter_none h
    · exact fsLookup_filter_none h

lemma removeStep_err_mono (s : SnapSpec) (keepLock : Bool) (acc : RemoveSt)
    (p : FsPath) (h : (removeStep s keepLock acc p).err = none) :
    acc.err = none := by
  rw [removeStep] at h
  revert h
  repeat' split
  all_goals simp_all

lemma removeFold_err_mono (s : SnapSpec) (keepLock : Bool) :
    ∀ (paths : List FsPath) (acc : RemoveSt),
      (paths.foldl (removeStep s keepLock) acc).err = none →
      acc.err = none := by
  intro paths
  induction paths with
  | nil => intro acc h; exact h
  | cons p ps ih =>
    intro acc h
    rw [List.foldl_cons] at h
    exact removeStep_err_mono s keepLock acc p (ih _ h)

lemma removeFold_erases (s : SnapSpec) (q : FsPath) :
    ∀ (paths : List FsPath) (acc : RemoveSt), q ∈ paths → acc.err = none →
      (paths.foldl (removeStep s false) acc).err = none →
      fsLookup (paths.foldl (removeStep s false) acc).fs q = none := by
  intro paths
  induction paths with
  | nil => intro acc h _ _; simp at h
  | cons p ps ih =>
    intro acc hq herr hfin
    rw [List.foldl_cons] at hfin ⊢
    rcases List.mem_cons.mp hq with rfl | hq
    · refine removeFold_none s false q ps _ ?_
      have herr2 : (removeStep s false acc q).err = none :=
        removeFold_err_mono s false ps _ hfin
      rw [removeStep, if_neg (by simp [herr])] at herr2 ⊢
      rw [if_neg (by simp)] at herr2 ⊢
      split at herr2
      · rename_i hdir
        rw [if_pos hdir]
        exact fsLookup_fsEraseTree_self _ (List.isPrefixOf_iff_prefix.mpr
          (List.prefix_refl q))
      · rename_i hdir
        rw [if_neg hdir]
        split at herr2
        · simp at herr2
        · rename_i hmiss
          rw [if_neg hmiss]
          exact fsLookup_fsErase_self _ q
    · exact ih _ hq (removeFold_err_mono s false ps _ hfin) hfin

lemma parentDir_append2 (base : FsPath) (x y : String) :
    parentDir (base ++ [x, y]) = base ++ [x] := by
  rw [parentDir, show base ++ [x, y] = (base ++ [x]) ++ [y] by simp,
    List.dropLast_concat]

lemma baseName_concat (l : FsPath) (a : String) : baseName (l ++ [a]) = a := by
  rw [baseName, List.getLastD_concat]

lemma baseName_append2 (base : FsPath) (x y : String) :
    baseName (base ++ [x, y]) = y := by
  rw [show base ++ [x, y] = (base ++ [x]) ++ [y] by simp, baseName_concat]

lemma candidates_under_nameDir (sid : SnapId) (et : EnvType) (nm fname : String)
    (st : SnapType) (base : FsPath) :
    ∀ p ∈ getPathsCandidates ⟨sid, et, nm, base ++ [nm, fname], st⟩,
      ∃ rest, p = base ++ nm :: rest := by
  intro p hp
  have hpar : parentDir (base ++ [nm, fname]) = base ++ [nm] :=
    parentDir_append2 base nm fname
  cases st <;> cases et <;>
    (simp [getPathsCandidates, SnapSpec.supportsActivation,
      SnapSpec.getActivatePath, SnapSpec.lockFile, hpar,
      baseName_append2] at hp) <;>
    (repeat' (first | (rcases hp with rfl | hp) | (subst hp))) <;>
    exact ⟨_, rfl⟩

/-- C10 (amended): `remove()` never modifies the dedup registry: for a
snapshot with no references, every path under the `.by_hash` directory maps
to the same entry after `remove(keep_lock)` as before, and with
`keep_lock=false` the lock file itself is deleted — so a removed canonical
snapshot leaves its (now dangling) registry symlink behind.  A later
`dedupe()` call with the same hash does not clean that dangling entry up:
the stale-entry path requires the registry link to still resolve, and the
call fails instead. -/
theorem remove_registry_frame (hashFn : String → String) (fs : FS)
    (sid : SnapId) (et : EnvType) (nm fname : String) (st : SnapType)
    (base : FsPath) (keepLock : Bool)
    (hnb : nm ≠ ".by_hash")
    (href : getReferences hashFn fs ⟨sid, et, nm, base ++ [nm, fname], st⟩ = []) :
    (∀ q, (⟨sid, et, nm, base ++ [nm, fname], st⟩ :
        SnapSpec).lockHashDir.isPrefixOf q = true →
      fsLookup (removeRun hashFn fs ⟨sid, et, nm, base ++ [nm, fname], st⟩
        keepLock) q = fsLookup fs q) ∧
    ((∃ fs', removeFS hashFn fs ⟨sid, et, nm, base ++ [nm, fname], st⟩
        false = .ok fs') →
      pathExists fs (⟨sid, et, nm, base ++ [nm, fname], st⟩ :
        SnapSpec).lockFile = true →
      fsLookup (removeRun hashFn fs ⟨sid, et, nm, base ++ [nm, fname], st⟩
        false) (⟨sid, et, nm, base ++ [nm, fname], st⟩ :
        SnapSpec).lockFile = none) := by
  set s : SnapSpec := ⟨sid, et, nm, base ++ [nm, fname], st⟩ with hs
  have hrun : ∀ kl, removeRun hashFn fs s kl =
      ((getPaths fs s).foldl (removeStep s kl) ⟨fs, none⟩).fs := by
    intro kl
    rw [removeRun, if_neg (by simp [href])]
  have hhd : s.lockHashDir = base ++ [".by_hash"] := by
    rw [hs]
    show parentDir (parentDir (base ++ [nm, fname])) ++ [".by_hash"] = _
    rw [parentDir_append2, parentDir, List.dropLast_concat]
  constructor
  · intro q hq
    rw [hrun keepLock]
    refine removeFold_lookup s keepLock q _ ⟨fs, none⟩ fun p hp => ?_
    obtain ⟨rest, hpe⟩ :=
      candidates_under_nameDir sid et nm fname st base p
        (List.mem_filter.mp hp).1
    rw [hhd] at hq
    rw [List.isPrefixOf_iff_prefix] at hq
    obtain ⟨tail, htail⟩ := hq
    rw [← htail, hpe]
    constructor
    · intro hpre
      rw [List.isPrefixOf_iff_prefix, show base ++ [".by_hash"] ++ tail =
        base ++ ".by_hash" :: tail by simp, List.prefix_append_right_inj,
        List.cons_prefix_cons] at hpre
      exact hnb hpre.1
    · intro heq
      rw [show base ++ [".by_hash"] ++ tail = base ++ ".by_hash" :: tail
        by simp] at heq
      have := List.append_cancel_left heq
      simp at this
      exact hnb this.1.symm
  · rintro ⟨fs', hok⟩ hex
    rw [hrun false]
    have herr : ((getPaths fs s).foldl (removeStep s false) ⟨fs, none⟩).err =
        none := by
      cases he : ((getPaths fs s).foldl (removeStep s false) ⟨fs, none⟩).err
        with
      | none => rfl
      | some e =>
        rw [removeFS, if_neg (by simp [href])] at hok
        simp only [he] at hok
        exact Except.noConfusion hok
    refine removeFold_erases s s.lockFile _ ⟨fs, none⟩ ?_ rfl herr
    rw [getPaths, List.mem_filter]
    refine ⟨?_, hex⟩
    rw [getPathsCandidates]
    simp

/-- Witness for C10: removing the concrete canonical snapshot after its
duplicate is gone leaves the registry entry dangling. -/
theorem remove_registry_frame_witness :
    ("enva" : String) ≠ ".by_hash" ∧
    getReferences hashConst
      (removeRun hashConst dedupedAB0 specB0 false) specA0 = [] ∧
    fsLookup (removeRun hashConst
        (removeRun hashConst dedupedAB0 specB0 false) specA0 false)
      (specA0.lockHashDir ++ ["H"]) =
      fsLookup (removeRun hashConst dedupedAB0 specB0 false)
        (specA0.lockHashDir ++ ["H"]) ∧
    fsLookup (removeRun hashConst
        (removeRun hashConst dedupedAB0 specB0 false) specA0 false)
      specA0.lockFile = none :=
  ⟨by decide, by decide,
    (remove_registry_frame hashConst
      (removeRun hashConst dedupedAB0 specB0 false) idA0 .spack "enva"
      (reprSnapId idA0 ++ envSuffix .spack) .env ["envs", "spack"] false
      (by decide) (by decide)).1 _ (by decide),
    (remove_registry_frame hashConst
      (removeRun hashConst dedupedAB0 specB0 false) idA0 .spack "enva"
      (reprSnapId idA0 ++ envSuffix .spack) .env ["envs", "spack"] false
      (by decide) (by decide)).2 ⟨_, rfl⟩ (by decide)⟩

/-- C10 counterexample to the parenthetical: the dangling registry entry
left behind by `remove(keep_lock=False)` is not cleaned up by a later
`dedupe()` call's stale-entry path.  That path requires the registry link
to still resolve to an existing file; on a dangling link `dedupe()` takes
the fresh-registration branch and `symlink_to` raises `FileExistsError`
instead. -/
theorem remove_dangling_not_cleaned :
    fsLookup danglingFS0 (specA0.lockHashDir ++ ["H"]) =
      some (.symlink specA0.lockFile) ∧
    pathExists danglingFS0 (specA0.lockHashDir ++ ["H"]) = false ∧
    dedupeFS hashConst laterBuildFS0 specC0 = .error .fileExists ∧
    fsLookup ((dedupeFS hashConst laterBuildFS0 specC0).toOption.elim
        laterBuildFS0 Prod.snd) (specA0.lockHashDir ++ ["H"]) =
      some (Node.symlink specA0.lockFile) :=
  ⟨by decide, by decide, rfl, by decide⟩

/-! ## Lemmas: stash_failed ordering (C4) -/

lemma stashMoveStep_trace (envDir stashDir : FsPath) (acc : StashSt)
    (fp : FsPath) :
    (stashMoveStep envDir stashDir acc fp).trace = acc.trace ∨
    ∃ m, (stashMoveStep envDir stashDir acc fp).trace =
      acc.trace ++ [Effect.move fp m] := by
  simp only [stashMoveStep]
  repeat' split
  all_goals first
    | exact Or.inl rfl
    | exact Or.inr ⟨_, rfl⟩

lemma stashMove_trace (envDir stashDir : FsPath) :
    ∀ (paths : List FsPath) (acc : StashSt),
      ∃ extra, (paths.foldl (stashMoveStep envDir stashDir) acc).trace =
        acc.trace ++ extra ∧ ∀ p, Effect.unlink p ∈ extra → False := by
  intro paths
  induction paths with
  | nil => intro acc; exact ⟨[], by simp, by simp⟩
  | cons fp ps ih =>
    intro acc
    rw [List.foldl_cons]
    obtain ⟨extra, he, hu⟩ := ih (stashMoveStep envDir stashDir acc fp)
    rcases stashMoveStep_trace envDir stashDir acc fp with hstep | ⟨m, hstep⟩
    · exact ⟨extra, by rw [he, hstep], hu⟩
    · refine ⟨Effect.move fp m :: extra, by rw [he, hstep]; simp, ?_⟩
      intro p hp
      rcases List.mem_cons.mp hp with hp | hp
      · cases hp
      · exact hu p hp

lemma stashLinkStep_trace (envDir stashDir : FsPath) (acc : StashSt)
    (fp : FsPath) :
    (stashLinkStep envDir stashDir acc fp).trace = acc.trace ∨
    ∃ sp t2, (stashLinkStep envDir stashDir acc fp).trace =
      acc.trace ++ [Effect.symlinkE sp t2, Effect.unlink fp] := by
  simp only [stashLinkStep]
  repeat' split
  all_goals first
    | exact Or.inl rfl
    | exact Or.inr ⟨_, _, rfl⟩

lemma stashLink_trace (envDir stashDir : FsPath) :
    ∀ (paths : List FsPath) (acc : StashSt),
      ∃ extra, (paths.foldl (stashLinkStep envDir stashDir) acc).trace =
        acc.trace ++ extra ∧ ∀ p, Effect.unlink p ∈ extra → p ∈ paths := by
  intro paths
  induction paths with
  | nil => intro acc; exact ⟨[], by simp, by simp⟩
  | cons fp ps ih =>
    intro acc
    rw [List.foldl_cons]
    obtain ⟨extra, he, hu⟩ := ih (stashLinkStep envDir stashDir acc fp)
    rcases stashLinkStep_trace envDir stashDir acc fp with hstep | ⟨sp, t2, hstep⟩
    · exact ⟨extra, by rw [he, hstep], fun p hp => List.mem_cons_of_mem _ (hu p hp)⟩
    · refine ⟨Effect.symlinkE sp t2 :: Effect.unlink fp :: extra,
        by rw [he, hstep]; simp, ?_⟩
      intro p hp
      rcases List.mem_cons.mp hp with hp | hp
      · cases hp
      · rcases List.mem_cons.mp hp with hp | hp
        · cases hp; exact List.mem_cons_self _ _
        · exact List.mem_cons_of_mem _ (hu p hp)

/-- C4: for a canonical snapshot, `stash_failed()` unlinks its registry
entry before anything else: the very first filesystem effect is that single
unlink, every move comes strictly later, and no later unlink targets the
registry entry again. -/
theorem stash_detach_precedes_moves (hashFn : String → String) (fs : FS)
    (sid : SnapId) (et : EnvType) (nm fname : String) (st : SnapType)
    (base hl : FsPath)
    (hnb : nm ≠ ".by_hash")
    (hhl : lockHashLink hashFn fs ⟨sid, et, nm, base ++ [nm, fname], st⟩ =
      some hl)
    (hcanon : isCanon hashFn fs ⟨sid, et, nm, base ++ [nm, fname], st⟩ =
      true) :
    ∃ rest,
      (stashFailedRun hashFn fs ⟨sid, et, nm, base ++ [nm, fname], st⟩).2 =
        Effect.unlink hl :: rest ∧
      ∀ p, Effect.unlink p ∈ rest → p ≠ hl := by
  set s : SnapSpec := ⟨sid, et, nm, base ++ [nm, fname], st⟩ with hs
  have hcond : pathExists fs hl = true ∧ resolvePath fs hl = s.lockFile := by
    rw [isCanon, hhl] at hcanon
    simpa using hcanon
  have hhd : s.lockHashDir = base ++ [".by_hash"] := by
    rw [hs]
    show parentDir (parentDir (base ++ [nm, fname])) ++ [".by_hash"] = _
    rw [parentDir_append2, parentDir, List.dropLast_concat]
  obtain ⟨h', hh', hlform⟩ : ∃ h', lockHash hashFn fs s = some h' ∧
      hl = s.lockHashDir ++ [h'] := by
    rw [lockHashLink] at hhl
    cases hh : lockHash hashFn fs s with
    | none => rw [hh] at hhl; simp at hhl
    | some x =>
      rw [hh] at hhl
      simp at hhl
      exact ⟨x, rfl, hhl.symm⟩
  have hne : ∀ p ∈ getPathsCandidates s, p ≠ hl := by
    intro p hp heq
    obtain ⟨r, hpe⟩ := candidates_under_nameDir sid et nm fname st base p
      (by rw [← hs]; exact hp)
    rw [hpe, hlform, hhd, show base ++ [".by_hash"] ++ [h'] =
      base ++ ".by_hash" :: [h'] by simp] at heq
    have := List.append_cancel_left heq
    simp at this
    exact hnb this.1
  rw [stashFailedRun, hhl]
  simp only [hcond.1, hcond.2, and_self, if_true, eq_self_iff_true]
  by_cases hae : (getPaths (fsErase fs hl) s).isEmpty
  · rw [if_pos hae]
    exact ⟨[], rfl, by simp⟩
  · rw [if_neg hae]
    set envDir := parentDir s.snapPath with henv
    set stashDir := envDir ++ [".failed_" ++ reprSnapId s.snapId] with hsd
    by_cases hmk : ¬ (fsLookup (fsErase fs hl) stashDir = none ∧
        isDir (fsErase fs hl) envDir = true)
    · rw [if_pos hmk]
      exact ⟨[], rfl, by simp⟩
    · rw [if_neg hmk]
      obtain ⟨e1, he1, hu1⟩ := stashMove_trace envDir stashDir
        (getPaths (fsErase fs hl) s)
        ⟨fsInsert (fsErase fs hl) stashDir .dir,
          [Effect.unlink hl, Effect.mkdirE stashDir], [], false⟩
      obtain ⟨e2, he2, hu2⟩ := stashLink_trace envDir stashDir
        (getPaths (fsErase fs hl) s)
        ((getPaths (fsErase fs hl) s).foldl (stashMoveStep envDir stashDir)
          ⟨fsInsert (fsErase fs hl) stashDir .dir,
            [Effect.unlink hl, Effect.mkdirE stashDir], [], false⟩)
      refine ⟨Effect.mkdirE stashDir :: (e1 ++ e2), ?_, ?_⟩
      · show (List.foldl (stashLinkStep envDir stashDir)
            (List.foldl (stashMoveStep envDir stashDir)
              ⟨fsInsert (fsErase fs hl) stashDir .dir,
                [Effect.unlink hl, Effect.mkdirE stashDir], [], false⟩
              (getPaths (fsErase fs hl) s))
            (getPaths (fsErase fs hl) s)).trace = _
        rw [he2, he1]
        simp
      · intro p hp
        rcases List.mem_cons.mp hp with hp | hp
        · cases hp
        · rcases List.mem_append.mp hp with hp | hp
          · exact absurd hp (by intro h; exact hu1 p h)
          · exact hne p (List.mem_filter.mp (hu2 p hp)).1

/-- Witness for C4 on the concrete canonical snapshot: the trace starts
with the registry unlink. -/
theorem stash_detach_precedes_moves_witness :
    ("enva" : String) ≠ ".by_hash" ∧
    lockHashLink hashConst dedupedAB0
      ⟨idA0, .spack, "enva", ["envs", "spack"] ++ ["enva", "202407"], .env⟩ =
      some ["envs", "spack", ".by_hash", "H"] ∧
    isCanon hashConst dedupedAB0
      ⟨idA0, .spack, "enva", ["envs", "spack"] ++ ["enva", "202407"], .env⟩ =
      true ∧
    ∃ rest,
      (stashFailedRun hashConst dedupedAB0
        ⟨idA0, .spack, "enva", ["envs", "spack"] ++ ["enva", "202407"],
          .env⟩).2 =
        Effect.unlink ["envs", "spack", ".by_hash", "H"] :: rest ∧
      ∀ p, Effect.unlink p ∈ rest → p ≠ ["envs", "spack", ".by_hash", "H"] :=
  ⟨by decide, by decide, by decide,
    stash_detach_precedes_moves hashConst dedupedAB0 idA0 .spack "enva"
      "202407" .env ["envs", "spack"] ["envs", "spack", ".by_hash", "H"]
      (by decide) (by decide) (by decide)⟩

/-- Witness for C8: a concrete automatic selection returns the unlabeled id,
and a concrete explicit request returns it unchanged. -/
theorem get_snap_label_policy_witness :
    (getSnap [⟨⟨2024, 7, 1⟩, 0, none⟩] 6 ⟨2024, 8, 15⟩ none =
        .ok ⟨⟨2024, 7, 1⟩, 0, none⟩) ∧
    (⟨⟨2024, 7, 1⟩, 0, none⟩ : SnapId).label = none ∧
    getSnap [⟨⟨2024, 7, 1⟩, 0, none⟩] 6 ⟨2024, 8, 15⟩
        (some ⟨⟨2024, 7, 1⟩, 0, none⟩) = .ok ⟨⟨2024, 7, 1⟩, 0, none⟩ :=
  ⟨rfl,
    get_snap_label_policy.1 [⟨⟨2024, 7, 1⟩, 0, none⟩] 6 ⟨2024, 8, 15⟩ _ rfl,
    get_snap_label_policy.2 [⟨⟨2024, 7, 1⟩, 0, none⟩] 6 ⟨2024, 8, 15⟩ _
      (by decide)⟩

end Byoe
